import Mathlib

/-!
Verification development for the btlr repository (package cmd).

The authoritative source is src/unnamed/part_005 (the current run.go), together
with src/cmd/common.go for the exit-code constants.  The program shells out to
the Go standard library for glob matching (path/filepath Match, Glob, Walk,
Clean, Join, Dir, Split) and to os/exec for process execution; those library
functions are modelled here faithfully at the granularity the program observes.

Conventions of the embedding:
- Paths, patterns and file names are lists of characters (abbrev Str), matching
  Go strings at rune granularity; all inputs are assumed to be valid unicode, so
  the utf8.RuneError branches of the Go matcher are unreachable and not modelled.
- The filesystem is a finite immutable tree rooted at the working directory.
  Directory children are stored in the name-sorted order that the OS enumeration
  (Readdirnames followed by sort.Strings) presents them in, so the model lists
  them in stored order.  Absolute paths and paths escaping the root via dot-dot
  resolve to nothing, i.e. they lie outside the modelled tree.
- Process execution is modelled by an oracle assigning each (directory, command)
  pair a CmdOutcome; the translation of an outcome to the error value returned
  by cmd.Run and to cmd.ProcessState.Success() follows the documented semantics
  of os/exec: a process that exited on its own or was terminated by a signal
  yields an ExitError, while a failure to start (including a context that is
  already canceled or past its deadline) yields a non-ExitError error.
- Recursion of rGlob is fuel-indexed because the Go function genuinely diverges
  on pathological filesystems (a directory literally named two stars); theorems
  about rGlob are stated for an arbitrary fuel at the appropriate step.
-/

abbrev Str := List Char

/-- Converts a string literal to the character-list representation. -/
def cstr (s : String) : Str := s.data

/-! ### Lexical path functions (models of Go path/filepath and strings) -/

/-- Models strings.Split(s, sep) for the one-character separator slash:
accumulates the current field (reversed) and emits it at each separator. -/
def splitAux (cur : Str) : Str → List Str
  | [] => [cur.reverse]
  | c :: rest => if c = '/' then cur.reverse :: splitAux [] rest else splitAux (c :: cur) rest
termination_by structural x => x

/-- Models strings.Split(pattern, string(os.PathSeparator)) on unix. -/
def splitOnSlash (s : Str) : List Str := splitAux [] s

/-- Joins fields with slashes (the inverse of splitOnSlash on canonical input). -/
def intercalateSlash : List Str → Str
  | [] => []
  | [s] => s
  | s :: rest => s ++ '/' :: intercalateSlash rest

/-- Segment-level core of Go filepath.Clean: drops empty and dot segments,
resolves dot-dot against the output stack (dropping it at the root of a rooted
path, keeping it at the front of a relative path). -/
def cleanAux (rooted : Bool) : List Str → List Str → List Str
  | [], out => out.reverse
  | s :: rest, out =>
    if s = [] ∨ s = ['.'] then cleanAux rooted rest out
    else if s = ['.', '.'] then
      match out with
      | t :: out' =>
        if t = ['.', '.'] then cleanAux rooted rest (s :: t :: out') else cleanAux rooted rest out'
      | [] => if rooted then cleanAux rooted rest [] else cleanAux rooted rest [s]
    else cleanAux rooted rest (s :: out)
termination_by structural x => x

/-- Models Go filepath.Clean (unix): lexical shortest equivalent path. -/
def filepathClean (p : Str) : Str :=
  if p = [] then ['.']
  else
    let rooted := p.head? = some '/'
    let body := intercalateSlash (cleanAux rooted (splitOnSlash p) [])
    if rooted then '/' :: body
    else if body = [] then ['.'] else body

/-- Models Go filepath.Join: joins from the first non-empty element onward and
Cleans the result; all-empty input gives the empty path. -/
def filepathJoin (elems : List Str) : Str :=
  match elems.dropWhile (· = ([] : Str)) with
  | [] => []
  | es => filepathClean (intercalateSlash es)

/-- Models the two-argument form filepath.Join(a, b) for non-empty a. -/
def joinTwo (a b : Str) : Str := filepathClean (a ++ '/' :: b)

/-- Models Go filepath.Dir: everything up to and including the final slash,
Cleaned; a path without a slash has directory dot. -/
def filepathDir (p : Str) : Str :=
  filepathClean ((p.reverse.dropWhile (· ≠ '/')).reverse)

/-- Segment list of a path after Clean; dot is the empty segment list
(the root of the modelled tree). -/
def cleanSegs (p : Str) : List Str :=
  let c := filepathClean p
  if c = ['.'] then [] else splitOnSlash c

/-- Models Go filepath.IsAbs on unix. -/
def isAbs (p : Str) : Bool := p.head? = some '/'

/-! ### Shell pattern matching (model of Go path/filepath Match)

Go scans the pattern into chunks, each a star flag followed by a star-free
chunk (scanChunk), and matches chunks left to right with star backtracking
(Match and matchChunk, with getEsc reading possibly escaped class characters).
Here the chunk scan is precomputed by scanChunks, and the chunk matcher is
the step function mcaStep iterated by matchChunkAux, with the character-class
parser of matchChunk and getEsc inlined as a mode of the same machine.  Every
step consumes at least one chunk character, so fuel one beyond the chunk
length always suffices.  The only error is the bad-pattern error, as in Go. -/

inductive MatchErr where
  | badPattern
  deriving DecidableEq

/-- Processing mode of the chunk matcher: either at the top level of the chunk
or inside a character class, carrying the rune read from the name, the negation
flag, the accumulated range match and the number of ranges parsed so far. -/
inductive MatchMode where
  | top
  | ranges (r : Char) (neg : Bool) (acc : Bool) (n : Nat)

/-- Outcome of one step of the chunk matcher: a final result, or the state
from which the matcher continues on a strictly shorter remaining chunk. -/
inductive McaStep where
  | ret (r : Except MatchErr (Option Str))
  | cont (m : MatchMode) (failed : Bool) (s : Str) (chunk : Str)

/-- One step of the chunk matcher, modelling one iteration of the Go matchChunk
loop together with getEsc.  The failed flag records a mismatch while the
remaining chunk is still parsed for syntax errors, exactly as the Go code does;
s is the not-yet-consumed name.  The character class parser of getEsc is
inlined as the ranges mode of the same machine. -/
def mcaStep (m : MatchMode) (failed : Bool) (s : Str) (chunk : Str) : McaStep :=
  match m, chunk with
  | .top, [] => .ret (if failed then .ok none else .ok (some s))
  | .top, c :: cs =>
    let failed' := failed || s.isEmpty
    if c = '[' then
      let r := match failed', s with | false, sc :: _ => sc | _, _ => Char.ofNat 0
      let s' := match failed', s with | false, _ :: st => st | _, _ => s
      if cs.head? = some '^' then
        match cs with
        | _ :: cs2 => .cont (.ranges r true false 0) failed' s' cs2
        | [] => .ret (.error .badPattern)
      else .cont (.ranges r false false 0) failed' s' cs
    else if c = '?' then
      match failed', s with
      | false, sc :: st => .cont .top (decide (sc = '/')) st cs
      | _, _ => .cont .top true s cs
    else if c = '\\' then
      match cs with
      | [] => .ret (.error .badPattern)
      | c2 :: cs2 =>
        match failed', s with
        | false, sc :: st => .cont .top (decide (c2 ≠ sc)) st cs2
        | _, _ => .cont .top true s cs2
    else
      match failed', s with
      | false, sc :: st => .cont .top (decide (c ≠ sc)) st cs
      | _, _ => .cont .top true s cs
  | .ranges _ _ _ _, [] => .ret (.error .badPattern)
  | .ranges r neg acc n, c1 :: t1 =>
    if c1 = ']' then
      if n > 0 then .cont .top (failed || (acc == neg)) s t1
      else .ret (.error .badPattern)
    else if c1 = '-' then .ret (.error .badPattern)
    else if c1 = '\\' then
      match t1 with
      | [] => .ret (.error .badPattern)
      | lo :: t2 =>
        if t2 = [] then .ret (.error .badPattern)
        else if t2.head? = some '-' then
          match t2 with
          | [] => .ret (.error .badPattern)
          | _ :: t3 =>
            if t3 = [] then .ret (.error .badPattern)
            else if t3.head? = some ']' ∨ t3.head? = some '-' then .ret (.error .badPattern)
            else if t3.head? = some '\\' then
              match t3 with
              | [] => .ret (.error .badPattern)
              | _ :: t4 =>
                match t4 with
                | [] => .ret (.error .badPattern)
                | hi :: t5 =>
                  if t5 = [] then .ret (.error .badPattern)
                  else .cont
                    (.ranges r neg (acc || (decide (lo ≤ r) && decide (r ≤ hi))) (n + 1))
                    failed s t5
            else
              match t3 with
              | [] => .ret (.error .badPattern)
              | hi :: t4 =>
                if t4 = [] then .ret (.error .badPattern)
                else .cont
                  (.ranges r neg (acc || (decide (lo ≤ r) && decide (r ≤ hi))) (n + 1))
                  failed s t4
        else .cont (.ranges r neg (acc || (lo == r)) (n + 1)) failed s t2
    else
      if t1 = [] then .ret (.error .badPattern)
      else if t1.head? = some '-' then
        match t1 with
        | [] => .ret (.error .badPattern)
        | _ :: t3 =>
          if t3 = [] then .ret (.error .badPattern)
          else if t3.head? = some ']' ∨ t3.head? = some '-' then .ret (.error .badPattern)
          else if t3.head? = some '\\' then
            match t3 with
            | [] => .ret (.error .badPattern)
            | _ :: t4 =>
              match t4 with
              | [] => .ret (.error .badPattern)
              | hi :: t5 =>
                if t5 = [] then .ret (.error .badPattern)
                else .cont
                  (.ranges r neg (acc || (decide (c1 ≤ r) && decide (r ≤ hi))) (n + 1))
                  failed s t5
          else
            match t3 with
            | [] => .ret (.error .badPattern)
            | hi :: t4 =>
              if t4 = [] then .ret (.error .badPattern)
              else .cont
                (.ranges r neg (acc || (decide (c1 ≤ r) && decide (r ≤ hi))) (n + 1))
                failed s t4
      else .cont (.ranges r neg (acc || (c1 == r)) (n + 1)) failed s t1

/-- Driver of the chunk matcher: iterates mcaStep.  Every continuation drops at
least one chunk character, so any fuel beyond the chunk length is enough and
the fuel-out error is unreachable from matchChunk. -/
def matchChunkAux : Nat → MatchMode → Bool → Str → Str → Except MatchErr (Option Str)
  | 0, _, _, _, _ => .error .badPattern
  | fuel + 1, m, failed, s, chunk =>
    match mcaStep m failed s chunk with
    | .ret r => r
    | .cont m2 failed2 s2 chunk2 => matchChunkAux fuel m2 failed2 s2 chunk2

/-- Models one matchChunk call of Go: chunk against the beginning of s,
returning the unconsumed remainder of s on success, none on a mismatch. -/
def matchChunk (chunk s : Str) : Except MatchErr (Option Str) :=
  matchChunkAux (chunk.length + 1) .top false s chunk

/-- Chunk scanner, modelling repeated Go scanChunk: splits a pattern into a
list of star-flagged star-free chunks.  Leading stars of a chunk set the flag;
a star inside a bracket range or after a backslash is ordinary content. -/
def scanChunksAux (star : Bool) (inr : Bool) (cur : Str) : Str → List (Bool × Str)
  | [] => [(star, cur.reverse)]
  | c :: rest =>
    if c = '*' ∧ ¬inr ∧ cur = [] then scanChunksAux true inr cur rest
    else if c = '*' ∧ ¬inr then (star, cur.reverse) :: scanChunksAux true false [] rest
    else if c = '\\' then
      (match rest with
       | [] => scanChunksAux star inr (c :: cur) []
       | c2 :: rest2 => scanChunksAux star inr (c2 :: c :: cur) rest2)
    else if c = '[' then scanChunksAux star true (c :: cur) rest
    else if c = ']' then scanChunksAux star false (c :: cur) rest
    else scanChunksAux star inr (c :: cur) rest
termination_by structural x => x

/-- All chunks of a pattern; the empty pattern has no chunks, matching the
immediate exit of the Go loop. -/
def scanChunks (p : Str) : List (Bool × Str) :=
  match p with
  | [] => []
  | _ => scanChunksAux false false [] p

/-- Star retry loop of Go Match: try the chunk at each later position of the
name, never skipping past a separator.  When this is the final chunk, a match
that leaves a remainder is skipped, as in the Go code. -/
def tryStar (chunk : Str) (lastChunk : Bool) : Str → Except MatchErr (Option Str)
  | [] => .ok none
  | c :: restName =>
    if c = '/' then .ok none
    else
      match matchChunk chunk restName with
      | .error e => .error e
      | .ok (some t) =>
        if lastChunk ∧ t ≠ [] then tryStar chunk lastChunk restName else .ok (some t)
      | .ok none => tryStar chunk lastChunk restName

/-- Syntactic validation of the remaining chunks before Match returns a
mismatch, exactly the final loop of the Go function. -/
def checkChunksValid : List (Bool × Str) → Except MatchErr Bool
  | [] => .ok false
  | (_, chunk) :: rest =>
    match matchChunk chunk [] with
    | .error e => .error e
    | .ok _ => checkChunksValid rest

/-- Chunkwise Match loop of Go path/filepath Match. -/
def goMatchChunks : List (Bool × Str) → Str → Except MatchErr Bool
  | [], name => .ok (decide (name = []))
  | (star, chunk) :: rest, name =>
    if star ∧ chunk = [] then .ok (decide ('/' ∉ name))
    else
      match matchChunk chunk name with
      | .error e => .error e
      | .ok (some t) =>
        if t = [] ∨ rest ≠ [] then goMatchChunks rest t
        else
          match (if star then tryStar chunk (rest = []) name else .ok none) with
          | .error e => .error e
          | .ok (some t2) => goMatchChunks rest t2
          | .ok none => checkChunksValid rest
      | .ok none =>
        match (if star then tryStar chunk (rest = []) name else .ok none) with
        | .error e => .error e
        | .ok (some t2) => goMatchChunks rest t2
        | .ok none => checkChunksValid rest

/-- Models Go filepath.Match(pattern, name). -/
def goMatch (p n : Str) : Except MatchErr Bool := goMatchChunks (scanChunks p) n

/-! ### Filesystem model and Go filepath.Glob / filepath.Walk -/

/-- A filesystem entry: a regular file or a directory with named children.
Children are stored in the sorted order the OS enumeration returns. -/
inductive FSEntry where
  | file : FSEntry
  | dir : List (Str × FSEntry) → FSEntry

/-- First child with the given name. -/
def lookupChild (s : Str) : List (Str × FSEntry) → Option FSEntry
  | [] => none
  | (n, c) :: rest => if n = s then some c else lookupChild s rest

/-- Resolves a cleaned segment path against the tree (the model of os.Stat and
os.Lstat existence: none is a failed stat). -/
def findEntry : FSEntry → List Str → Option FSEntry
  | e, [] => some e
  | .file, _ :: _ => none
  | .dir cs, s :: rest =>
    match lookupChild s cs with
    | some c => findEntry c rest
    | none => none

/-- One level of Glob expansion: matches a pattern segment against the children
of every directory of the current frontier, in order, collecting the matching
entries.  A file on the frontier contributes nothing, as the Go glob helper
returns immediately when the prefix is not a directory. -/
def globLevel (seg : Str) (frontier : List (List Str × FSEntry)) :
    Except MatchErr (List (List Str × FSEntry)) :=
  frontier.foldlM (fun acc pe =>
    match pe with
    | (_, .file) => .ok acc
    | (p, .dir cs) => cs.foldlM (fun acc2 nc => do
        let b ← goMatch seg nc.1
        if b then pure (acc2 ++ [(p ++ [nc.1], nc.2)]) else pure acc2) acc) []

/-- Segment-level core of Go filepath.Glob: expands the cleaned pattern one
segment per level from the root.  This is the same level-by-level recursion Go
performs by splitting the pattern at its last separator, and produces the same
lexicographic order and the same error behaviour. -/
def globSegs (fs : FSEntry) (segs : List Str) : Except MatchErr (List (List Str)) :=
  (segs.foldlM (fun frontier seg => globLevel seg frontier) [([], fs)]).map (·.map Prod.fst)

/-- Renders a matched segment path; the empty path is the working directory dot. -/
def joinSegs (p : List Str) : Str :=
  if p = [] then ['.'] else intercalateSlash p

/-- Models Go filepath.Glob on the tree, up to path cleaning: the pattern is
validated up front with Match against the empty name (as Go does since 1.16),
the empty pattern matches nothing, and otherwise the cleaned segments are
expanded level by level.  Absence of matches is the empty list, never an error. -/
def goGlob (fs : FSEntry) (pattern : Str) : Except MatchErr (List Str) := do
  let _ ← goMatch pattern []
  if pattern = [] then pure []
  else (globSegs fs (cleanSegs pattern)).map (·.map joinSegs)

-- Computable size of a filesystem entry, used as walk depth fuel (any bound
-- at least the tree depth gives the full walk, and size dominates depth).
mutual
def fsSize : FSEntry → Nat
  | .file => 1
  | .dir cs => fsChildrenSize cs + 1
def fsChildrenSize : List (Str × FSEntry) → Nat
  | [] => 0
  | (_, c) :: rest => fsSize c + fsChildrenSize rest
end

/-- Directory nodes visited by filepath.Walk from the given path over the given
entry, in the preorder walk order; file nodes are visited by Walk but the rGlob
callback ignores them, so only directories are collected. -/
def walkDirsGo : Nat → Str → FSEntry → List Str
  | 0, _, _ => []
  | _ + 1, _, .file => []
  | d + 1, path, .dir cs =>
    path :: cs.foldr (fun nc acc => walkDirsGo d (joinTwo path nc.1) nc.2 ++ acc) []

/-- Models the directory sequence of filepath.Walk(root): a root that fails to
stat yields no directories (the rGlob callback swallows the error), a file root
yields none, and a directory root is visited first, at depth zero. -/
def walkDirs (fs : FSEntry) (root : Str) : List Str :=
  match findEntry fs (cleanSegs root) with
  | none => []
  | some e => walkDirsGo (fsSize e) root e

/-! ### rGlob (src/unnamed/part_005 lines 324-370) -/

inductive GlobErr where
  | badPattern
  | fuelOut
  deriving DecidableEq

/-- Appends one match unless already present: the combined effect of the hist
map lookup and the conditional append of the rGlob walk callback. -/
def insertNew (acc : List Str) (x : Str) : List Str :=
  if x ∈ acc then acc else acc ++ [x]

/-- Appends a list of matches with first-seen deduplication against acc. -/
def appendNew (acc : List Str) (xs : List Str) : List Str := xs.foldl insertNew acc

/-- First-seen deduplication of a match list. -/
def dedupFirstSeen (xs : List Str) : List Str := appendNew [] xs

/-- The globstar segment, two stars. -/
def gsSeg : Str := ['*', '*']

/-- The walk prefix of rGlob (line 338 and the absolute re-anchoring of lines
339-341): Clean of the Join of the segments before the first globstar,
re-anchored when the original pattern was absolute. -/
def rGlobPre (parts : List Str) (g : Nat) (pattern : Str) : Str :=
  let pre := filepathClean (filepathJoin (parts.take g))
  if isAbs pattern ∧ ¬ isAbs pre then joinTwo ['/'] pre else pre

/-- The suffix of rGlob (lines 338 and 342-344): Join of the segments after the
first globstar, or a single star when the globstar is the final segment. -/
def rGlobPost (parts : List Str) (g : Nat) : Str :=
  if g = parts.length - 1 then ['*'] else filepathJoin (parts.drop (g + 1))

/-- Models rGlob of src/unnamed/part_005 lines 324-370.  The pattern is split
on the path separator; without a globstar segment the standard glob is used;
otherwise every directory under the walk prefix is visited in walk order and
the suffix is resolved recursively at each, merging results with first-seen
deduplication and aborting on the first error, as the Walk callback does.  The
fuel bounds the recursion depth: the Go function has no such bound and can
recurse forever on a filesystem containing a directory literally named as the
globstar, so fuel exhaustion is a distinguished error. -/
def rGlob (fs : FSEntry) : Nat → Str → Except GlobErr (List Str)
  | 0, _ => .error .fuelOut
  | fuel + 1, pattern =>
    let parts := splitOnSlash pattern
    match parts.findIdx? (· == gsSeg) with
    | none => (goGlob fs pattern).mapError (fun _ => .badPattern)
    | some g =>
      (walkDirs fs (rGlobPre parts g pattern)).foldlM
        (fun acc d =>
          (rGlob fs fuel (joinTwo d (rGlobPost parts g))).map (fun results => appendNew acc results))
        []

/-! ### Statuses and command execution (src/unnamed/part_005 lines 258-322) -/

inductive StatusType where
  | Error
  | Skipped
  | Failure
  | Success
  deriving DecidableEq

/-- Error value returned by cmd.Run, as the program distinguishes it: an
ExitError carries the wait status description; a context error compares
identically to the corresponding context sentinel; other start failures carry
their description. -/
inductive GoErr where
  | exitError (desc : String)
  | contextCanceled
  | contextDeadlineExceeded
  | otherErr (desc : String)
  deriving DecidableEq

def GoErr.desc : GoErr → String
  | .exitError d => d
  | .contextCanceled => "context canceled"
  | .contextDeadlineExceeded => "context deadline exceeded"
  | .otherErr d => d

def GoErr.isExitErr : GoErr → Bool
  | .exitError _ => true
  | _ => false

/-- Possible fates of one command invocation.  Per os/exec semantics: a process
that started and exited with a code yields nil or an ExitError; a process
killed by a signal, including the kill triggered by context cancellation or a
context deadline while running, yields an ExitError whose wait status describes
the signal; a process that never started (binary not found, or the context was
already done before Start) yields a non-ExitError error. -/
inductive CmdOutcome where
  | exited (code : Nat)
  | signalKilled (sig : String)
  | startCanceled
  | startDeadlineExceeded
  | startFailed (desc : String)
  deriving DecidableEq

/-- The error value of cmd.Run for each outcome. -/
def runErr : CmdOutcome → Option GoErr
  | .exited 0 => none
  | .exited (n + 1) => some (.exitError ("exit status " ++ toString (n + 1)))
  | .signalKilled sig => some (.exitError ("signal: " ++ sig))
  | .startCanceled => some .contextCanceled
  | .startDeadlineExceeded => some .contextDeadlineExceeded
  | .startFailed d => some (.otherErr d)

/-- Models cmd.ProcessState.Success(): exited with status zero.  It is only
consulted on the branch where the error was nil or an ExitError, where the
process state exists. -/
def processSuccess : CmdOutcome → Bool
  | .exited 0 => true
  | _ => false

/-- The result record of one operation, modelling the Status and Err fields of
runResult (the captured output buffers are not modelled; no claim concerns
their contents). -/
structure runResult where
  Status : StatusType
  Err : Option String
  deriving DecidableEq

/-- Space-joined command line, as strings.Join(cmd.Args, " "). -/
def joinSpace : List String → String
  | [] => ""
  | [a] => a
  | a :: rest => a ++ " " ++ joinSpace rest

/-- Status derivation of runOperation.Execute (part_005 lines 273-287): a
non-nil error that is not an ExitError means the command failed to run, with
the bare context cancellation rewritten to the interrupted message and the
error wrapped; otherwise the exit status decides between Success and Failure. -/
def runCmdResult (args : List String) (o : CmdOutcome) : runResult :=
  match runErr o with
  | some e =>
    if ¬ e.isExitErr then
      let msg := if e = .contextCanceled
        then "interupted before complete (sigint or sigterm)" else e.desc
      { Status := .Error, Err := some ("failed to run cmd (" ++ joinSpace args ++ "): " ++ msg) }
    else
      { Status := if processSuccess o then .Success else .Failure, Err := some e.desc }
  | none => { Status := if processSuccess o then .Success else .Failure, Err := none }

/-- Panic raised by closing an already-closed channel. -/
inductive PanicErr where
  | doubleClose
  deriving DecidableEq

/-- State of one runOperation (part_005 lines 258-264): target directory, the
shared command, whether the done channel has been closed, and the result,
which is absent until Execute has written it. -/
structure runOperation where
  Dir : Str
  Cmd : List String
  done : Bool
  res : Option runResult
  deriving DecidableEq

/-- Models newRunOperation (lines 250-256): fresh operation with an open done
channel and no result. -/
def newRunOperation (dir : Str) (cmd : List String) : runOperation :=
  { Dir := dir, Cmd := cmd, done := false, res := none }

/-- Models runOperation.Execute (lines 266-288) applied to an operation whose
command has the given outcome.  The deferred close of the done channel panics
when the channel is already closed, which is exactly the case of a second
Execute call on the same operation. -/
def Execute (o : CmdOutcome) (r : runOperation) : Except PanicErr runOperation :=
  if r.done then .error .doubleClose
  else .ok { r with done := true, res := some (runCmdResult r.Cmd o) }

/-- Models runOperation.Done (lines 290-298): the non-blocking probe. -/
def OpDone (r : runOperation) : Bool := r.done

/-- Models runOperation.Result (lines 300-304): blocks until the done channel
is closed, then returns the result; none stands for a call that would block
forever because the operation never completes. -/
def OpResult (r : runOperation) : Option runResult :=
  if r.done then r.res else none

/-! ### The worker pool (src/unnamed/part_005 lines 223-248) -/

/-- Models the operation array built by startInDirs lines 225-230: one fresh
operation per directory, in input order; the same operations are sent to the
buffered queue channel in this order before any is claimed. -/
def startInDirs (dirs : List Str) (execCmd : List String) : List runOperation :=
  dirs.map (fun d => newRunOperation d execCmd)

/-- The claim assignment of a pool run: the queue channel delivers its items in
order, each to exactly one receiving worker; entry k of the schedule names the
worker performing the k-th receive, so the k-th queued operation is claimed by
that worker.  A schedule at least as long as the queue drains it completely. -/
def claimAssignment (w : Nat) (sched : List (Fin w)) (n : Nat) : List (Fin w × Nat) :=
  sched.zip (List.range n)

/-- Executes a list of claimed operation indices over the operation array, each
claim running Execute once on the claimed operation; an index outside the array
is impossible for channel-delivered items and is skipped.  Propagates the
double-close panic. -/
def execClaims (oracle : Str → List String → CmdOutcome) :
    List Nat → List runOperation → Except PanicErr (List runOperation)
  | [], ops => .ok ops
  | i :: is, ops =>
    match ops.get? i with
    | none => execClaims oracle is ops
    | some op =>
      match Execute (oracle op.Dir op.Cmd) op with
      | .error e => .error e
      | .ok op' => execClaims oracle is (ops.set i op')

/-- Timeout-scoped cancellation derived by the worker at claim time (part_005
lines 236-241): when a per-operation timeout is configured, the operation
context carries the deadline claim time plus the timeout, and Execute is called
immediately after, so execution starts at claim time. -/
structure OpCtx where
  claimTime : Nat
  deadline : Option Nat
  deriving DecidableEq

/-- Models the worker loop body for one claimed operation (lines 235-242):
derive the operation context at the moment of the claim. -/
def claimWithTimeout (maxDur : Nat) (t : Nat) : OpCtx :=
  { claimTime := t, deadline := if maxDur ≠ 0 then some (t + maxDur) else none }

/-- Whether the derived context fires during an execution of the given
duration started at the claim time. -/
def ctxTimesOut (c : OpCtx) (runDur : Nat) : Bool :=
  match c.deadline with
  | some dl => decide (dl < c.claimTime + runDur)
  | none => false

/-! ### The run pipeline (src/unnamed/part_005 lines 78-221, src/cmd/common.go) -/

def FailedCmdExitCode : Nat := 2
def MisuseExitCode : Nat := 50
def InterruptExitCode : Nat := 51

/-- Fatal early returns of runRun: exitWithCode(MisuseExitCode, err) for glob
errors and the no-match check, exitWithCode(FailedCmdExitCode, err) for a stat
failure while reducing matches to directories. -/
inductive ExitErr where
  | misuse
  | failedCmd
  deriving DecidableEq

def ExitErr.code : ExitErr → Nat
  | .misuse => MisuseExitCode
  | .failedCmd => FailedCmdExitCode

/-- Match collection of runRun lines 96-103: rGlob per pattern, concatenated,
aborting on the first pattern error. -/
def collectMatches (fs : FSEntry) (fuel : Nat) (patterns : List Str) :
    Except GlobErr (List Str) :=
  patterns.foldlM (fun acc p => (rGlob fs fuel p).map (acc ++ ·)) []

/-- Whether a path stats as a directory; none is a failed os.Stat.  The stat
runs against the filesystem state at reduction time, which a race may have
changed since the glob ran. -/
def statIsDir (fs : FSEntry) (m : Str) : Option Bool :=
  (findEntry fs (cleanSegs m)).map (fun e => match e with | .file => false | .dir _ => true)

/-- Directory reduction of runRun lines 107-121: stat each match (a failure is
fatal), keep a directory match as is and replace a file match by its containing
directory, appending first occurrences only. -/
def reduceToDirs (fs : FSEntry) : List Str → List Str → Except String (List Str)
  | [], dirs => .ok dirs
  | m :: ms, dirs =>
    match statIsDir fs m with
    | none => .error "error determining paths"
    | some isdir =>
      let m' := if isdir then m else filepathDir m
      reduceToDirs fs ms (insertNew dirs m')

/-- Status of one command run in one directory under the outcome oracle. -/
def statusOf (oracle : Str → List String → CmdOutcome) (d : Str) (c : List String) : StatusType :=
  (runCmdResult c (oracle d c)).Status

/-- Final disposition of runRun lines 192-220: failure exit code exactly when
the per-status counts of the primary operations include a Failure or an Error. -/
def summaryExit (prim : List (Str × StatusType)) : Option Nat :=
  if 0 < prim.countP (fun p => p.2 == .Failure) ∨ 0 < prim.countP (fun p => p.2 == .Error)
  then some FailedCmdExitCode else none

/-- Observable outcome of a completed runRun: the filter operations with their
statuses, the primary operations with theirs, and the exit code (none is the
nil return, overall success). -/
structure RunOut where
  filterOps : List (Str × StatusType)
  primaryOps : List (Str × StatusType)
  exitCode : Option Nat
  deriving DecidableEq

/-- Models runRun of src/unnamed/part_005 lines 78-221 after flag parsing:
collect matches (fatal misuse on a pattern error or when nothing matched),
reduce matches to unique directories (fatal failed-cmd on a stat failure),
optionally run the git-diff filter over all candidate directories and keep
exactly those whose filter status is not Success, then run the primary command
in the surviving directories and compute the summary exit disposition.  The
glob and the stat see possibly different filesystem states, reflecting that the
two traversals happen at different times. -/
def runRunModel (fsGlob fsStat : FSEntry) (fuel : Nat)
    (oracle : Str → List String → CmdOutcome) (patterns : List Str)
    (execCmd : List String) (gitDiffArgs : Option (List String)) :
    Except ExitErr RunOut :=
  match collectMatches fsGlob fuel patterns with
  | .error _ => .error .misuse
  | .ok ms =>
    if ms = [] then .error .misuse
    else
      match reduceToDirs fsStat ms [] with
      | .error _ => .error .failedCmd
      | .ok dirs =>
        match gitDiffArgs with
        | none =>
          .ok { filterOps := [],
                primaryOps := dirs.map (fun d => (d, statusOf oracle d execCmd)),
                exitCode := summaryExit (dirs.map (fun d => (d, statusOf oracle d execCmd))) }
        | some args =>
          .ok { filterOps := dirs.map (fun d =>
                  (d, statusOf oracle d (["git", "diff", "--exit-code"] ++ args))),
                primaryOps := (((dirs.map (fun d =>
                  (d, statusOf oracle d (["git", "diff", "--exit-code"] ++ args)))).filter
                    (fun p => p.2 != StatusType.Success)).map Prod.fst).map
                      (fun d => (d, statusOf oracle d execCmd)),
                exitCode := summaryExit ((((dirs.map (fun d =>
                  (d, statusOf oracle d (["git", "diff", "--exit-code"] ++ args)))).filter
                    (fun p => p.2 != StatusType.Success)).map Prod.fst).map
                      (fun d => (d, statusOf oracle d execCmd))) }

/-! ### The TestRGlob filesystem (src/cmd/run_test.go lines 244-328) and the
behaviour of the embedded rGlob on the repository's own test cases. -/

/-- The temporary tree of TestRGlob: file.txt, file.xml, a/file.txt,
a/b/c/file.txt, a/b/c/file.xml, a/b/c/d/file.txt. -/
def testFS : FSEntry := .dir [
  (cstr "a", .dir [
    (cstr "b", .dir [
      (cstr "c", .dir [
        (cstr "d", .dir [(cstr "file.txt", .file)]),
        (cstr "file.txt", .file),
        (cstr "file.xml", .file)
      ])
    ]),
    (cstr "file.txt", .file)
  ]),
  (cstr "file.txt", .file),
  (cstr "file.xml", .file)
]

/-- TestRGlob case basic glob. -/
theorem test_rglob_basic_glob : rGlob testFS 10 (cstr "*.txt") = .ok [cstr "file.txt"] := rfl

/-- TestRGlob case basic globstar. -/
theorem test_rglob_basic_globstar : rGlob testFS 10 (cstr "**.txt") = .ok [cstr "file.txt"] := rfl

/-- TestRGlob case folder globstar. -/
theorem test_rglob_folder_globstar : rGlob testFS 10 (cstr "**/*.txt") =
    .ok [cstr "file.txt", cstr "a/file.txt", cstr "a/b/c/file.txt", cstr "a/b/c/d/file.txt"] := rfl

/-- TestRGlob case double globstar. -/
theorem test_rglob_double_globstar : rGlob testFS 10 (cstr "**/b/**/*.txt") =
    .ok [cstr "a/b/c/file.txt", cstr "a/b/c/d/file.txt"] := rfl

/-- A pattern that matches nothing yields the empty list, not an error. -/
theorem test_rglob_no_match_empty : rGlob testFS 10 (cstr "nomatch*") = .ok [] := rfl

/-- A malformed bracket pattern yields the bad-pattern error. -/
theorem test_rglob_bad_pattern : rGlob testFS 10 (cstr "[") = .error .badPattern := rfl

/-! ### Helper lemmas about status derivation -/

/-- Every outcome derives one of the three executed statuses; Skipped is never
produced by Execute. -/
lemma runCmdResult_status_cases (args : List String) (o : CmdOutcome) :
    (runCmdResult args o).Status = .Success ∨ (runCmdResult args o).Status = .Failure
    ∨ (runCmdResult args o).Status = .Error := by
  cases o with
  | exited n =>
    cases n <;> simp [runCmdResult, runErr, processSuccess, GoErr.isExitErr]
  | signalKilled sig => simp [runCmdResult, runErr, processSuccess, GoErr.isExitErr]
  | startCanceled => simp [runCmdResult, runErr, GoErr.isExitErr]
  | startDeadlineExceeded => simp [runCmdResult, runErr, GoErr.isExitErr]
  | startFailed d => simp [runCmdResult, runErr, GoErr.isExitErr]

lemma statusOf_ne_skipped (oracle : Str → List String → CmdOutcome) (d : Str)
    (c : List String) : statusOf oracle d c ≠ .Skipped := by
  unfold statusOf
  rcases runCmdResult_status_cases c (oracle d c) with h | h | h <;> simp [h]

/-! ### Claim C1 -/

/-- Claim C1 counterexample: a child process forcibly terminated by a signal
(the fate of a process killed by the per-operation timeout or pool-wide
cancellation while running) yields an ExitError from cmd.Run, so Execute
classifies it as Failure, not Error, contradicting the claim that such an
operation always ends in Error. -/
theorem signal_kill_yields_failure_not_error :
    (runCmdResult ["sleep", "2"] (.signalKilled "killed")).Status = .Failure
    ∧ StatusType.Failure ≠ StatusType.Error := by
  constructor
  · rfl
  · decide

/-- Claim C1 amended: an operation whose process fails to start (including a
context already canceled or past its deadline before the start) ends in Error;
but a process terminated by a signal after starting, which is how timeout and
cancellation kills present, produces an ExitError and therefore ends in
Failure, the same status as an ordinary non-zero exit.  The termination is
distinguishable from a clean exit only through the Err message, which names the
signal instead of an exit status. -/
theorem execute_status_derivation (args : List String) (sig desc : String) :
    (runCmdResult args .startCanceled).Status = .Error
    ∧ (runCmdResult args .startDeadlineExceeded).Status = .Error
    ∧ (runCmdResult args (.startFailed desc)).Status = .Error
    ∧ (runCmdResult args (.signalKilled sig)).Status = .Failure
    ∧ (runCmdResult args (.signalKilled sig)).Err = some ("signal: " ++ sig)
    ∧ (∀ m, (runCmdResult args (.exited m)).Err ≠ (runCmdResult args (.signalKilled sig)).Err) := by
  refine ⟨rfl, rfl, rfl, rfl, rfl, ?_⟩
  intro m
  cases m with
  | zero => simp [runCmdResult, runErr, GoErr.isExitErr, GoErr.desc]
  | succ k =>
    have hE : (runCmdResult args (.exited (k + 1))).Err
        = some ("exit status " ++ toString (k + 1)) := rfl
    have hS : (runCmdResult args (.signalKilled sig)).Err = some ("signal: " ++ sig) := rfl
    rw [hE, hS]
    intro h
    have h2 := congrArg (fun t => t.data.head?) (Option.some.inj h)
    simp only [String.data_append] at h2
    simp at h2

/-! ### Claim C4 -/

/-- Claim C4: a command that starts and runs to a clean exit yields Success on
exit code zero and Failure on any non-zero exit code, and every executed
operation ends in exactly one of Success, Failure, Error. -/
theorem execute_clean_exit_status (args : List String) (n : Nat) (o : CmdOutcome) :
    (runCmdResult args (.exited n)).Status = (if n = 0 then .Success else .Failure)
    ∧ ((runCmdResult args o).Status = .Success ∨ (runCmdResult args o).Status = .Failure
       ∨ (runCmdResult args o).Status = .Error) := by
  constructor
  · cases n <;> simp [runCmdResult, runErr, processSuccess, GoErr.isExitErr]
  · exact runCmdResult_status_cases args o

/-! ### Claim C9 -/

/-- Claim C9: with a per-operation timeout configured, the worker derives the
operation context at the moment it claims the operation, so the deadline is the
claim time plus the timeout; whether the timeout fires during an execution of a
given duration depends only on that duration, never on the claim time, so time
spent waiting in the queue does not count against the budget. -/
theorem per_op_timeout_from_claim (maxDur t t2 runDur : Nat) (h : maxDur ≠ 0) :
    (claimWithTimeout maxDur t).deadline = some (t + maxDur)
    ∧ ctxTimesOut (claimWithTimeout maxDur t) runDur = decide (maxDur < runDur)
    ∧ ctxTimesOut (claimWithTimeout maxDur t) runDur
        = ctxTimesOut (claimWithTimeout maxDur t2) runDur := by
  refine ⟨by simp [claimWithTimeout, h], ?_, ?_⟩
  · simp [claimWithTimeout, ctxTimesOut, h, Nat.add_lt_add_iff_left]
  · simp [claimWithTimeout, ctxTimesOut, h, Nat.add_lt_add_iff_left]

/-- Witness for claim C9 at timeout 5, claim times 0 and 1000, run duration 7. -/
theorem per_op_timeout_from_claim_witness :
    (5 ≠ 0)
    ∧ ((claimWithTimeout 5 1000).deadline = some (1000 + 5)
       ∧ ctxTimesOut (claimWithTimeout 5 1000) 7 = decide (5 < 7)
       ∧ ctxTimesOut (claimWithTimeout 5 1000) 7 = ctxTimesOut (claimWithTimeout 5 0) 7) :=
  ⟨by decide, per_op_timeout_from_claim 5 1000 0 7 (by decide)⟩

/-! ### Claim C10 -/

/-- Operations freshly created by startInDirs have an open done channel. -/
lemma startInDirs_fresh (dirs : List Str) (cmd : List String) (i : Nat) (op : runOperation)
    (h : (startInDirs dirs cmd).get? i = some op) : op.done = false := by
  unfold startInDirs at h
  rw [List.get?_map] at h
  cases hg : dirs.get? i with
  | none => rw [hg] at h; cases h
  | some d =>
    rw [hg] at h
    cases h
    rfl

/-- Along any claim list without repeated indices, executing each claim once
over an array of operations that are fresh at the claimed indices never hits
the double-close panic. -/
lemma execClaims_ok_of_nodup (oracle : Str → List String → CmdOutcome) :
    ∀ (claims : List Nat) (ops : List runOperation), claims.Nodup →
      (∀ i op, i ∈ claims → ops.get? i = some op → op.done = false) →
      ∃ ops', execClaims oracle claims ops = .ok ops' := by
  intro claims
  induction claims with
  | nil => exact fun ops _ _ => ⟨ops, rfl⟩
  | cons i is ih =>
    intro ops hnd hfresh
    obtain ⟨hni, hnd'⟩ := List.nodup_cons.mp hnd
    cases hg : ops.get? i with
    | none =>
      unfold execClaims
      simp only [hg]
      exact ih ops hnd' (fun j op hj hgj => hfresh j op (List.mem_cons_of_mem i hj) hgj)
    | some op =>
      have hdone : op.done = false := hfresh i op (List.mem_cons_self i is) hg
      have hex : Execute (oracle op.Dir op.Cmd) op
          = .ok { op with done := true, res := some (runCmdResult op.Cmd (oracle op.Dir op.Cmd)) } := by
        unfold Execute
        rw [hdone]
        simp
      unfold execClaims
      simp only [hg, hex]
      apply ih _ hnd'
      intro j op' hj hgj
      have hij : i ≠ j := fun e => hni (e ▸ hj)
      rw [List.get?_set_ne _ _ hij] at hgj
      exact hfresh j op' (List.mem_cons_of_mem i hj) hgj

/-- Claim C10: Execute closes the done channel on return, so a second Execute
call on an already-executed operation panics with a double close; the result
written by the single Execute is exactly the derived command result, Result
returns that same stored value whenever the operation is done, and any pool run
whose claim list has no repeated index, as the single-receive channel
guarantees, executes without a panic. -/
theorem execute_closes_done_once :
    (∀ dir cmd o, Execute o (newRunOperation dir cmd)
       = .ok { Dir := dir, Cmd := cmd, done := true, res := some (runCmdResult cmd o) })
    ∧ (∀ r o, r.done = true → Execute o r = .error .doubleClose)
    ∧ (∀ r, r.done = true → OpResult r = r.res)
    ∧ (∀ oracle dirs cmd claims, claims.Nodup →
         ∃ ops', execClaims oracle claims (startInDirs dirs cmd) = .ok ops') := by
  refine ⟨fun dir cmd o => rfl, fun r o h => ?_, fun r h => ?_, ?_⟩
  · unfold Execute
    rw [h]
    rfl
  · unfold OpResult
    rw [h]
    simp
  · intro oracle dirs cmd claims hnd
    exact execClaims_ok_of_nodup oracle claims (startInDirs dirs cmd) hnd
      (fun i op _ hg => startInDirs_fresh dirs cmd i op hg)

/-- A completed operation, for the claim C10 witness. -/
def opDoneW : runOperation :=
  { Dir := cstr "foo", Cmd := ["go", "test"], done := true,
    res := some (runCmdResult ["go", "test"] (.exited 0)) }

/-- Witness for claim C10: a completed operation is done, executing it again
panics with the double close, Result returns its stored result, and a
duplicate-free pool run over two directories panics nowhere. -/
theorem execute_closes_done_once_witness :
    opDoneW.done = true
    ∧ Execute (.exited 0) opDoneW = .error .doubleClose
    ∧ OpResult opDoneW = opDoneW.res
    ∧ ([0, 1].Nodup
       ∧ ∃ ops', execClaims (fun _ _ => .exited 0) [0, 1]
           (startInDirs [cstr "foo", cstr "bar"] ["go", "test"]) = .ok ops') := by
  refine ⟨rfl, ?_, ?_, by decide, ?_⟩
  · exact execute_closes_done_once.2.1 opDoneW (.exited 0) rfl
  · exact execute_closes_done_once.2.2.1 opDoneW rfl
  · exact execute_closes_done_once.2.2.2 (fun _ _ => .exited 0)
      [cstr "foo", cstr "bar"] ["go", "test"] [0, 1] (by decide)

/-! ### Claim C7 -/

/-- Claim C7: startInDirs builds exactly one operation handle per input
directory, in input order, each bound to the shared command and initially not
done; and in any complete pool run, where the schedule performs at least as
many receives as there are queued operations, each operation index is claimed
by exactly one receive event, hence executed by exactly one worker exactly
once. -/
theorem startInDirs_order_and_exclusive_claims (dirs : List Str) (cmd : List String)
    (w : Nat) (sched : List (Fin w)) (i : Nat)
    (hlen : dirs.length ≤ sched.length) (hi : i < dirs.length) :
    (startInDirs dirs cmd).map (fun op => op.Dir) = dirs
    ∧ (∀ op ∈ startInDirs dirs cmd, op.Cmd = cmd ∧ op.done = false)
    ∧ ((claimAssignment w sched dirs.length).map Prod.snd).count i = 1 := by
  refine ⟨?_, ?_, ?_⟩
  · unfold startInDirs
    rw [List.map_map]
    have h1 : ((fun (op : runOperation) => op.Dir) ∘ fun d => newRunOperation d cmd)
        = fun d => d := rfl
    rw [h1, List.map_id']
  · intro op hop
    obtain ⟨d, _, hd⟩ := List.mem_map.mp hop
    cases hd
    exact ⟨rfl, rfl⟩
  · unfold claimAssignment
    rw [List.map_snd_zip _ _ (by simpa using hlen)]
    exact List.count_eq_one_of_mem (List.nodup_range _) (List.mem_range.mpr hi)

/-- Witness for claim C7: two directories, one worker receiving twice. -/
theorem startInDirs_order_and_exclusive_claims_witness :
    ([cstr "foo", cstr "bar"].length ≤ ([0, 0] : List (Fin 1)).length
     ∧ 0 < [cstr "foo", cstr "bar"].length)
    ∧ ((startInDirs [cstr "foo", cstr "bar"] ["make"]).map (fun op => op.Dir)
         = [cstr "foo", cstr "bar"]
       ∧ (∀ op ∈ startInDirs [cstr "foo", cstr "bar"] ["make"], op.Cmd = ["make"] ∧ op.done = false)
       ∧ ((claimAssignment 1 [0, 0] [cstr "foo", cstr "bar"].length).map Prod.snd).count 0 = 1) :=
  ⟨⟨by decide, by decide⟩,
   startInDirs_order_and_exclusive_claims [cstr "foo", cstr "bar"] ["make"] 1 [0, 0] 0
     (by decide) (by decide)⟩

/-! ### Pipeline lemmas -/

lemma summaryExit_some_iff (l : List (Str × StatusType)) :
    summaryExit l = some FailedCmdExitCode
      ↔ ∃ p ∈ l, p.2 = StatusType.Failure ∨ p.2 = StatusType.Error := by
  constructor
  · intro h
    by_cases hc : 0 < l.countP (fun p => p.2 == StatusType.Failure)
        ∨ 0 < l.countP (fun p => p.2 == StatusType.Error)
    · rcases hc with hc | hc
      · obtain ⟨p, hp, hps⟩ := List.countP_pos_iff.mp hc
        exact ⟨p, hp, Or.inl (by simpa using hps)⟩
      · obtain ⟨p, hp, hps⟩ := List.countP_pos_iff.mp hc
        exact ⟨p, hp, Or.inr (by simpa using hps)⟩
    · unfold summaryExit at h
      rw [if_neg hc] at h
      cases h
  · rintro ⟨p, hp, hor⟩
    have hc : 0 < l.countP (fun p => p.2 == StatusType.Failure)
        ∨ 0 < l.countP (fun p => p.2 == StatusType.Error) := by
      rcases hor with h2 | h2
      · exact Or.inl (List.countP_pos_iff.mpr ⟨p, hp, by simp [h2]⟩)
      · exact Or.inr (List.countP_pos_iff.mpr ⟨p, hp, by simp [h2]⟩)
    unfold summaryExit
    rw [if_pos hc]

lemma summaryExit_none_of_success (l : List (Str × StatusType))
    (h : ∀ p ∈ l, p.2 ≠ StatusType.Skipped → p.2 = StatusType.Success) :
    summaryExit l = none := by
  unfold summaryExit
  rw [if_neg]
  rintro (hc | hc)
  · obtain ⟨p, hp, hps⟩ := List.countP_pos_iff.mp hc
    have hf : p.2 = StatusType.Failure := by simpa using hps
    have := h p hp (by rw [hf]; decide)
    rw [hf] at this
    cases this
  · obtain ⟨p, hp, hps⟩ := List.countP_pos_iff.mp hc
    have hf : p.2 = StatusType.Error := by simpa using hps
    have := h p hp (by rw [hf]; decide)
    rw [hf] at this
    cases this

/-- Inversion of a completed run: how each field of the output record was
computed.  In the unfiltered case the filter operation list is empty and the
primary directories are the reduced directories; with a filter, the primary
directories are exactly the filter operations with a status other than Success,
in order. -/
lemma runRunModel_ok_inv (fsG fsS : FSEntry) (fuel : Nat)
    (oracle : Str → List String → CmdOutcome) (patterns : List Str)
    (execCmd : List String) (gd : Option (List String)) (out : RunOut)
    (h : runRunModel fsG fsS fuel oracle patterns execCmd gd = .ok out) :
    out.exitCode = summaryExit out.primaryOps
    ∧ (∀ p ∈ out.primaryOps, p.2 = statusOf oracle p.1 execCmd)
    ∧ (gd = none → out.filterOps = [])
    ∧ (∀ args, gd = some args →
        (∀ p ∈ out.filterOps,
           p.2 = statusOf oracle p.1 (["git", "diff", "--exit-code"] ++ args))
        ∧ out.primaryOps
            = ((out.filterOps.filter (fun p => p.2 != StatusType.Success)).map Prod.fst).map
                (fun d => (d, statusOf oracle d execCmd))) := by
  cases gd with
  | none =>
    unfold runRunModel at h
    split at h
    · cases h
    · split at h
      · cases h
      · split at h
        · cases h
        · cases h
          refine ⟨rfl, ?_, ?_, ?_⟩
          · intro p hp
            obtain ⟨d, _, hd⟩ := List.mem_map.mp hp
            cases hd
            rfl
          · intro _
            rfl
          · intro args hargs
            exact Option.noConfusion hargs
  | some args =>
    unfold runRunModel at h
    split at h
    · cases h
    · split at h
      · cases h
      · split at h
        · cases h
        · cases h
          refine ⟨rfl, ?_, ?_, ?_⟩
          · intro p hp
            obtain ⟨d, _, hd⟩ := List.mem_map.mp hp
            cases hd
            rfl
          · intro hn
            exact Option.noConfusion hn
          · intro args2 hargs
            cases hargs
            refine ⟨?_, rfl⟩
            intro p hp
            obtain ⟨d, _, hd⟩ := List.mem_map.mp hp
            cases hd
            rfl

/-! ### Claim C3 -/

/-- Claim C3: a completed run exits with the failed command code exactly when
some primary operation ended in Failure or Error, and when every non-Skipped
primary operation is Success the run returns nil, the overall success. -/
theorem run_exit_disposition (fsG fsS : FSEntry) (fuel : Nat)
    (oracle : Str → List String → CmdOutcome) (patterns : List Str)
    (execCmd : List String) (gd : Option (List String)) (out : RunOut)
    (h : runRunModel fsG fsS fuel oracle patterns execCmd gd = .ok out) :
    (out.exitCode = some FailedCmdExitCode
      ↔ ∃ p ∈ out.primaryOps, p.2 = StatusType.Failure ∨ p.2 = StatusType.Error)
    ∧ ((∀ p ∈ out.primaryOps, p.2 ≠ StatusType.Skipped → p.2 = StatusType.Success)
        → out.exitCode = none) := by
  have hx := (runRunModel_ok_inv fsG fsS fuel oracle patterns execCmd gd out h).1
  constructor
  · rw [hx]
    exact summaryExit_some_iff out.primaryOps
  · intro hall
    rw [hx]
    exact summaryExit_none_of_success out.primaryOps hall

/-- A one directory, always succeeding, filterless run for the claim C3 and
claim C6 witnesses: the pattern matches the single file under dir foo. -/
def fsW : FSEntry := .dir [(cstr "foo", .dir [(cstr "x.txt", .file)])]

/-- The output record of the concrete successful run used by the claim C3
witness. -/
def outW : RunOut :=
  { filterOps := [], primaryOps := [(cstr "foo", StatusType.Success)], exitCode := none }

/-- Witness for claim C3 at a concrete successful run. -/
theorem run_exit_disposition_witness :
    (runRunModel fsW fsW 3 (fun _ _ => .exited 0) [cstr "foo/x.txt"] ["make"] none = .ok outW)
    ∧ (outW.exitCode = some FailedCmdExitCode
        ↔ ∃ p ∈ outW.primaryOps, p.2 = StatusType.Failure ∨ p.2 = StatusType.Error) := by
  constructor
  · rfl
  · exact (run_exit_disposition fsW fsW 3 (fun _ _ => .exited 0) [cstr "foo/x.txt"]
      ["make"] none outW rfl).1

/-! ### Claim C5 -/

/-- The directory a match reduces to: itself when it stats as a directory, its
containing directory when it stats as a file. -/
def matchDir (fs : FSEntry) (m : Str) : Str :=
  if (statIsDir fs m).getD false then m else filepathDir m

lemma reduceToDirs_ok (fs : FSEntry) :
    ∀ (ms : List Str) (acc : List Str), (∀ m ∈ ms, (statIsDir fs m).isSome) →
      reduceToDirs fs ms acc = .ok ((ms.map (matchDir fs)).foldl insertNew acc) := by
  intro ms
  induction ms with
  | nil => intro acc _; rfl
  | cons m rest ih =>
    intro acc hall
    have hm : (statIsDir fs m).isSome := hall m (List.mem_cons_self m rest)
    cases hb : statIsDir fs m with
    | none => rw [hb] at hm; cases hm
    | some b =>
      have hmd : (if b = true then m else filepathDir m) = matchDir fs m := by
        unfold matchDir
        rw [hb]
        rfl
      simp only [reduceToDirs, hb, List.map_cons, List.foldl_cons]
      rw [hmd]
      exact ih (insertNew acc (matchDir fs m))
        (fun x hx => hall x (List.mem_cons_of_mem m hx))

lemma reduceToDirs_err (fs : FSEntry) :
    ∀ (ms : List Str) (acc : List Str), (∃ m ∈ ms, statIsDir fs m = none) →
      reduceToDirs fs ms acc = .error "error determining paths" := by
  intro ms
  induction ms with
  | nil => rintro acc ⟨m, hm, _⟩; cases hm
  | cons m rest ih =>
    rintro acc ⟨x, hx, hnone⟩
    cases hb : statIsDir fs m with
    | none =>
      simp only [reduceToDirs, hb]
    | some b =>
      simp only [reduceToDirs, hb]
      rcases List.mem_cons.mp hx with he | hxrest
      · rw [he] at hnone
        rw [hnone] at hb
        cases hb
      · exact ih (insertNew acc (if b = true then m else filepathDir m)) ⟨x, hxrest, hnone⟩

/-- Claim C5: directory reduction keeps a directory match unchanged, replaces a
file match by its containing directory, and appends each directory only on
first appearance over the concatenated match list; a failed stat of any match
is a fatal error, and in the pipeline that error aborts the whole run with the
failed command exit error before any operation list is produced. -/
theorem reduce_dirs_dedup_and_fatal_stat (fsS : FSEntry) (ms : List Str) :
    ((∀ m ∈ ms, (statIsDir fsS m).isSome) →
       reduceToDirs fsS ms [] = .ok (dedupFirstSeen (ms.map (matchDir fsS))))
    ∧ ((∃ m ∈ ms, statIsDir fsS m = none) →
       reduceToDirs fsS ms [] = .error "error determining paths")
    ∧ (∀ (fsG : FSEntry) (fuel : Nat) (oracle : Str → List String → CmdOutcome)
         (patterns : List Str) (execCmd : List String) (gd : Option (List String)),
         collectMatches fsG fuel patterns = .ok ms → ms ≠ [] →
         (∃ m ∈ ms, statIsDir fsS m = none) →
         runRunModel fsG fsS fuel oracle patterns execCmd gd = .error .failedCmd) := by
  refine ⟨fun hall => reduceToDirs_ok fsS ms [] hall,
          fun hbad => reduceToDirs_err fsS ms [] hbad, ?_⟩
  intro fsG fuel oracle patterns execCmd gd hcm hne hbad
  unfold runRunModel
  rw [hcm]
  simp only [if_neg hne]
  rw [reduceToDirs_err fsS ms [] hbad]

/-- Glob-time tree for the claim C5 witness: one file under dir foo. -/
def fsGlobW : FSEntry := .dir [(cstr "foo", .dir [(cstr "x.txt", .file)])]

/-- Stat-time tree for the claim C5 witness: the matched file has vanished. -/
def fsStatW : FSEntry := .dir []

/-- Witness for claim C5: a successful reduction producing the deduplicated
containing directories, and a stat race aborting the run as the fatal failed
command error. -/
theorem reduce_dirs_dedup_and_fatal_stat_witness :
    ((∀ m ∈ [cstr "foo/x.txt", cstr "foo", cstr "foo/x.txt"], (statIsDir fsGlobW m).isSome)
       ∧ reduceToDirs fsGlobW [cstr "foo/x.txt", cstr "foo", cstr "foo/x.txt"] []
           = .ok (dedupFirstSeen ([cstr "foo/x.txt", cstr "foo", cstr "foo/x.txt"].map
               (matchDir fsGlobW))))
    ∧ ((collectMatches fsGlobW 3 [cstr "foo/x.txt"] = .ok [cstr "foo/x.txt"]
        ∧ ([cstr "foo/x.txt"] : List Str) ≠ [] ∧ statIsDir fsStatW (cstr "foo/x.txt") = none)
       ∧ runRunModel fsGlobW fsStatW 3 (fun _ _ => .exited 0) [cstr "foo/x.txt"] ["make"] none
           = .error .failedCmd) := by
  refine ⟨⟨?_, ?_⟩, ⟨⟨rfl, ?_, rfl⟩, ?_⟩⟩
  · intro m hm
    fin_cases hm <;> rfl
  · exact (reduce_dirs_dedup_and_fatal_stat fsGlobW
      [cstr "foo/x.txt", cstr "foo", cstr "foo/x.txt"]).1 (by intro m hm; fin_cases hm <;> rfl)
  · intro h
    cases h
  · exact (reduce_dirs_dedup_and_fatal_stat fsStatW [cstr "foo/x.txt"]).2.2 fsGlobW 3
      (fun _ _ => .exited 0) [cstr "foo/x.txt"] ["make"] none rfl (by intro h; cases h)
      ⟨cstr "foo/x.txt", List.mem_cons_self _ _, rfl⟩

/-! ### Claim C6 -/

/-- Claim C6 amended: with a filter command configured, exactly the candidate
directories whose filter operation status is not Success proceed to the primary
run, in order; a directory excluded by the filter gets no primary operation at
all, and no operation, filter or primary, ever carries the Skipped status,
which this code never assigns. -/
theorem filter_excludes_without_skip (fsG fsS : FSEntry) (fuel : Nat)
    (oracle : Str → List String → CmdOutcome) (patterns : List Str)
    (execCmd : List String) (args : List String) (out : RunOut)
    (h : runRunModel fsG fsS fuel oracle patterns execCmd (some args) = .ok out) :
    out.primaryOps.map Prod.fst
      = (out.filterOps.filter (fun p => p.2 != StatusType.Success)).map Prod.fst
    ∧ (∀ d st, (d, st) ∈ out.filterOps → st = StatusType.Success →
        ∀ st2, (d, st2) ∉ out.primaryOps)
    ∧ (∀ p ∈ out.primaryOps, p.2 ≠ StatusType.Skipped)
    ∧ (∀ p ∈ out.filterOps, p.2 ≠ StatusType.Skipped) := by
  have hinv := runRunModel_ok_inv fsG fsS fuel oracle patterns execCmd (some args) out h
  obtain ⟨hfS, hprimEq⟩ := hinv.2.2.2 args rfl
  refine ⟨?_, ?_, ?_, ?_⟩
  · rw [hprimEq, List.map_map]
    have h1 : (Prod.fst ∘ fun d => (d, statusOf oracle d execCmd)) = fun (d : Str) => d := rfl
    rw [h1, List.map_id']
  · intro d st hmem hsucc st2 hmem2
    rw [hprimEq] at hmem2
    obtain ⟨d', hd', heq⟩ := List.mem_map.mp hmem2
    have hdd : d' = d := congrArg Prod.fst heq
    obtain ⟨p, hpf, hp1⟩ := List.mem_map.mp hd'
    have hpmem : p ∈ out.filterOps := (List.mem_filter.mp hpf).1
    have hpne : (p.2 != StatusType.Success) = true := (List.mem_filter.mp hpf).2
    have hsame : p.2 = statusOf oracle p.1 (["git", "diff", "--exit-code"] ++ args) :=
      hfS p hpmem
    have hst : st = statusOf oracle d (["git", "diff", "--exit-code"] ++ args) :=
      hfS (d, st) hmem
    rw [hp1, hdd] at hsame
    rw [hsame, ← hst, hsucc] at hpne
    simp at hpne
  · intro p hp
    have := (hinv.2.1) p hp
    rw [this]
    exact statusOf_ne_skipped oracle p.1 execCmd
  · intro p hp
    rw [hfS p hp]
    exact statusOf_ne_skipped oracle p.1 (["git", "diff", "--exit-code"] ++ args)

/-- The tree of the claim C6 scenario: directory bar holding one text file. -/
def fsC6 : FSEntry := .dir [(cstr "bar", .dir [(cstr "x.txt", .file)])]

/-- Outcome oracle of the claim C6 scenario: the git diff filter command exits
zero in every directory (no changes), any other command exits one. -/
def oracleC6 : Str → List String → CmdOutcome :=
  fun _ c => if c = ["git", "diff", "--exit-code"] then .exited 0 else .exited 1

/-- The completed run of the claim C6 scenario. -/
def outC6 : RunOut :=
  { filterOps := [(cstr "bar", StatusType.Success)], primaryOps := [], exitCode := none }

/-- Claim C6 counterexample: in the concrete filter scenario, directory bar is
excluded because its filter operation succeeded, but its primary operation is
not marked Skipped; no primary operation for bar exists at all, since the
excluded directory never reaches the primary pool and the code never assigns
the Skipped status. -/
theorem filter_skipped_counterexample :
    runRunModel fsC6 fsC6 3 oracleC6 [cstr "bar/x.txt"] ["make"] (some []) = .ok outC6
    ∧ (cstr "bar", StatusType.Success) ∈ outC6.filterOps
    ∧ outC6.primaryOps = []
    ∧ ¬ ∃ p ∈ outC6.primaryOps, p.1 = cstr "bar" ∧ p.2 = StatusType.Skipped := by
  refine ⟨rfl, ?_, rfl, ?_⟩
  · exact List.mem_cons_self _ _
  · rintro ⟨p, hp, -⟩
    cases hp

/-- Witness for the amended claim C6 at the concrete filter scenario. -/
theorem filter_excludes_without_skip_witness :
    (runRunModel fsC6 fsC6 3 oracleC6 [cstr "bar/x.txt"] ["make"] (some []) = .ok outC6)
    ∧ (outC6.primaryOps.map Prod.fst
        = (outC6.filterOps.filter (fun p => p.2 != StatusType.Success)).map Prod.fst
       ∧ (∀ d st, (d, st) ∈ outC6.filterOps → st = StatusType.Success →
           ∀ st2, (d, st2) ∉ outC6.primaryOps)
       ∧ (∀ p ∈ outC6.primaryOps, p.2 ≠ StatusType.Skipped)
       ∧ (∀ p ∈ outC6.filterOps, p.2 ≠ StatusType.Skipped)) :=
  ⟨rfl, filter_excludes_without_skip fsC6 fsC6 3 oracleC6 [cstr "bar/x.txt"] ["make"] []
    outC6 rfl⟩

/-! ### Claim C2 -/

lemma foldl_appendNew_join : ∀ (rs : List (List Str)) (acc : List Str),
    rs.foldl appendNew acc = appendNew acc rs.flatten := by
  intro rs
  induction rs with
  | nil => intro acc; rfl
  | cons r rs ih =>
    intro acc
    rw [List.foldl_cons, List.flatten_cons, ih]
    unfold appendNew
    rw [List.foldl_append]

lemma foldlM_appendNew {α : Type} (f : α → Except GlobErr (List Str)) :
    ∀ (xs : List α) (acc : List Str),
      xs.foldlM (fun a x => (f x).map (fun results => appendNew a results)) acc
        = (xs.mapM f).map (fun rs => rs.foldl appendNew acc) := by
  intro xs
  induction xs with
  | nil => intro acc; rfl
  | cons x xs ih =>
    intro acc
    rw [List.foldlM_cons, List.mapM_cons]
    cases hf : f x with
    | error e => rfl
    | ok r =>
      have h1 : ((Except.ok r : Except GlobErr (List Str)).map
            (fun results => appendNew acc results) >>= fun a =>
              xs.foldlM (fun a x => (f x).map (fun results => appendNew a results)) a)
          = xs.foldlM (fun a x => (f x).map (fun results => appendNew a results))
              (appendNew acc r) := rfl
      rw [h1, ih (appendNew acc r)]
      cases hm : xs.mapM f with
      | error e2 => rfl
      | ok rs => rfl

/-- Claim C2: for a pattern whose segment list contains a globstar, rGlob
splits at the first globstar index into the walk prefix and the suffix, visits
every directory under the prefix in walk order, resolves the suffix recursively
at each visited directory with the same algorithm, and returns the union of
those results deduplicated in insertion order; and whenever the prefix resolves
to a directory, the walk visits the prefix itself first, at depth zero.  The
recursive call re-splits its own argument, which is how additional globstars in
the suffix are handled. -/
theorem rGlob_globstar_spec (fs : FSEntry) (fuel : Nat) (pattern : Str) (g : Nat)
    (hg : (splitOnSlash pattern).findIdx? (· == gsSeg) = some g) :
    rGlob fs (fuel + 1) pattern
      = ((walkDirs fs (rGlobPre (splitOnSlash pattern) g pattern)).mapM
          (fun d => rGlob fs fuel (joinTwo d (rGlobPost (splitOnSlash pattern) g)))).map
          (fun rs => dedupFirstSeen rs.flatten)
    ∧ (∀ cs, findEntry fs (cleanSegs (rGlobPre (splitOnSlash pattern) g pattern))
          = some (.dir cs)
        → (walkDirs fs (rGlobPre (splitOnSlash pattern) g pattern)).head?
            = some (rGlobPre (splitOnSlash pattern) g pattern)) := by
  constructor
  · show (match (splitOnSlash pattern).findIdx? (· == gsSeg) with
      | none => (goGlob fs pattern).mapError (fun _ => GlobErr.badPattern)
      | some g =>
        (walkDirs fs (rGlobPre (splitOnSlash pattern) g pattern)).foldlM
          (fun acc d =>
            (rGlob fs fuel (joinTwo d (rGlobPost (splitOnSlash pattern) g))).map
              (fun results => appendNew acc results)) []) = _
    rw [hg]
    show (walkDirs fs (rGlobPre (splitOnSlash pattern) g pattern)).foldlM
        (fun acc d =>
          (rGlob fs fuel (joinTwo d (rGlobPost (splitOnSlash pattern) g))).map
            (fun results => appendNew acc results)) [] = _
    rw [foldlM_appendNew (fun d => rGlob fs fuel (joinTwo d (rGlobPost (splitOnSlash pattern) g)))]
    congr 1
    funext rs
    rw [foldl_appendNew_join]
    rfl
  · intro cs h
    unfold walkDirs
    rw [h]
    rfl

/-- Witness for claim C2 on the TestRGlob tree with the folder globstar
pattern, whose first globstar is segment zero. -/
theorem rGlob_globstar_spec_witness :
    ((splitOnSlash (cstr "**/*.txt")).findIdx? (· == gsSeg) = some 0)
    ∧ (rGlob testFS 4 (cstr "**/*.txt")
        = ((walkDirs testFS (rGlobPre (splitOnSlash (cstr "**/*.txt")) 0 (cstr "**/*.txt"))).mapM
            (fun d => rGlob testFS 3
              (joinTwo d (rGlobPost (splitOnSlash (cstr "**/*.txt")) 0)))).map
            (fun rs => dedupFirstSeen rs.flatten)
       ∧ (∀ cs, findEntry testFS
            (cleanSegs (rGlobPre (splitOnSlash (cstr "**/*.txt")) 0 (cstr "**/*.txt")))
              = some (.dir cs)
          → (walkDirs testFS
              (rGlobPre (splitOnSlash (cstr "**/*.txt")) 0 (cstr "**/*.txt"))).head?
                = some (rGlobPre (splitOnSlash (cstr "**/*.txt")) 0 (cstr "**/*.txt")))) :=
  ⟨rfl, rGlob_globstar_spec testFS 3 (cstr "**/*.txt") 0 rfl⟩

/-! ### Claim C8 -/

/-- Whether a matcher mode is inside a character class. -/
def modeFlag : MatchMode → Bool
  | .top => false
  | .ranges _ _ _ _ => true

/-- The range count of a matcher mode. -/
def modeN : MatchMode → Nat
  | .top => 0
  | .ranges _ _ _ n => n

/-- Outcome of one step of the chunk syntax checker. -/
inductive CsStep where
  | ret (b : Bool)
  | cont (inr : Bool) (n : Nat) (chunk : Str)

/-- One step of the syntactic well-formedness checker for a chunk, written
from the specification notion of a malformed bracket expression: it walks the
chunk alone, with no name, accepting exactly the chunks whose escapes are
complete and whose character classes are properly delimited; inr says whether
the walk is inside a class and n counts its parsed ranges. -/
def csOKStep (inr : Bool) (n : Nat) (chunk : Str) : CsStep :=
  match inr, chunk with
  | false, [] => .ret true
  | false, c :: cs =>
    if c = '[' then
      if cs.head? = some '^' then
        match cs with
        | _ :: cs2 => .cont true 0 cs2
        | [] => .ret false
      else .cont true 0 cs
    else if c = '?' then .cont false 0 cs
    else if c = '\\' then
      match cs with
      | [] => .ret false
      | _ :: cs2 => .cont false 0 cs2
    else .cont false 0 cs
  | true, [] => .ret false
  | true, c1 :: t1 =>
    if c1 = ']' then
      if n > 0 then .cont false 0 t1
      else .ret false
    else if c1 = '-' then .ret false
    else if c1 = '\\' then
      match t1 with
      | [] => .ret false
      | _ :: t2 =>
        if t2 = [] then .ret false
        else if t2.head? = some '-' then
          match t2 with
          | [] => .ret false
          | _ :: t3 =>
            if t3 = [] then .ret false
            else if t3.head? = some ']' ∨ t3.head? = some '-' then .ret false
            else if t3.head? = some '\\' then
              match t3 with
              | [] => .ret false
              | _ :: t4 =>
                match t4 with
                | [] => .ret false
                | _ :: t5 =>
                  if t5 = [] then .ret false
                  else .cont true (n + 1) t5
            else
              match t3 with
              | [] => .ret false
              | _ :: t4 =>
                if t4 = [] then .ret false
                else .cont true (n + 1) t4
        else .cont true (n + 1) t2
    else
      if t1 = [] then .ret false
      else if t1.head? = some '-' then
        match t1 with
        | [] => .ret false
        | _ :: t3 =>
          if t3 = [] then .ret false
          else if t3.head? = some ']' ∨ t3.head? = some '-' then .ret false
          else if t3.head? = some '\\' then
            match t3 with
            | [] => .ret false
            | _ :: t4 =>
              match t4 with
              | [] => .ret false
              | _ :: t5 =>
                if t5 = [] then .ret false
                else .cont true (n + 1) t5
          else
            match t3 with
            | [] => .ret false
            | _ :: t4 =>
              if t4 = [] then .ret false
              else .cont true (n + 1) t4
      else .cont true (n + 1) t1

/-- Driver of the chunk syntax checker, stepping in lockstep with the matcher
driver; running out of fuel rejects, as the matcher does. -/
def csOKRun : Nat → Bool → Nat → Str → Bool
  | 0, _, _, _ => false
  | fuel + 1, inr, n, chunk =>
    match csOKStep inr n chunk with
    | .ret b => b
    | .cont inr2 n2 chunk2 => csOKRun fuel inr2 n2 chunk2

/-- Syntactic well-formedness of one chunk: no incomplete escape and no
malformed character class. -/
def chunkSyntaxOK (chunk : Str) : Bool := csOKRun (chunk.length + 1) false 0 chunk

/-- Agreement of one matcher step with one checker step: equal return
verdicts, or continuations with the same class flag, range count and remaining
chunk. -/
def stepOK : McaStep → CsStep → Prop
  | .ret r, .ret b => r.isOk = b
  | .cont m2 _ _ ch2, .cont inr2 n2 ch3 => modeFlag m2 = inr2 ∧ modeN m2 = n2 ∧ ch2 = ch3
  | _, _ => False

lemma mcaStep_top_cons (failed : Bool) (s : Str) (c : Char) (cs : Str) :
    mcaStep .top failed s (c :: cs) =
    (
    let failed' := failed || s.isEmpty
    if c = '[' then
      let r := match failed', s with | false, sc :: _ => sc | _, _ => Char.ofNat 0
      let s' := match failed', s with | false, _ :: st => st | _, _ => s
      if cs.head? = some '^' then
        match cs with
        | _ :: cs2 => .cont (.ranges r true false 0) failed' s' cs2
        | [] => .ret (.error .badPattern)
      else .cont (.ranges r false false 0) failed' s' cs
    else if c = '?' then
      match failed', s with
      | false, sc :: st => .cont .top (decide (sc = '/')) st cs
      | _, _ => .cont .top true s cs
    else if c = '\\' then
      match cs with
      | [] => .ret (.error .badPattern)
      | c2 :: cs2 =>
        match failed', s with
        | false, sc :: st => .cont .top (decide (c2 ≠ sc)) st cs2
        | _, _ => .cont .top true s cs2
    else
      match failed', s with
      | false, sc :: st => .cont .top (decide (c ≠ sc)) st cs
      | _, _ => .cont .top true s cs
    ) := rfl

lemma mcaStep_ranges_cons (r : Char) (neg acc : Bool) (n : Nat) (failed : Bool) (s : Str)
    (c1 : Char) (t1 : Str) :
    mcaStep (.ranges r neg acc n) failed s (c1 :: t1) =
    (
    if c1 = ']' then
      if n > 0 then .cont .top (failed || (acc == neg)) s t1
      else .ret (.error .badPattern)
    else if c1 = '-' then .ret (.error .badPattern)
    else if c1 = '\\' then
      match t1 with
      | [] => .ret (.error .badPattern)
      | lo :: t2 =>
        if t2 = [] then .ret (.error .badPattern)
        else if t2.head? = some '-' then
          match t2 with
          | [] => .ret (.error .badPattern)
          | _ :: t3 =>
            if t3 = [] then .ret (.error .badPattern)
            else if t3.head? = some ']' ∨ t3.head? = some '-' then .ret (.error .badPattern)
            else if t3.head? = some '\\' then
              match t3 with
              | [] => .ret (.error .badPattern)
              | _ :: t4 =>
                match t4 with
                | [] => .ret (.error .badPattern)
                | hi :: t5 =>
                  if t5 = [] then .ret (.error .badPattern)
                  else .cont
                    (.ranges r neg (acc || (decide (lo ≤ r) && decide (r ≤ hi))) (n + 1))
                    failed s t5
            else
              match t3 with
              | [] => .ret (.error .badPattern)
              | hi :: t4 =>
                if t4 = [] then .ret (.error .badPattern)
                else .cont
                  (.ranges r neg (acc || (decide (lo ≤ r) && decide (r ≤ hi))) (n + 1))
                  failed s t4
        else .cont (.ranges r neg (acc || (lo == r)) (n + 1)) failed s t2
    else
      if t1 = [] then .ret (.error .badPattern)
      else if t1.head? = some '-' then
        match t1 with
        | [] => .ret (.error .badPattern)
        | _ :: t3 =>
          if t3 = [] then .ret (.error .badPattern)
          else if t3.head? = some ']' ∨ t3.head? = some '-' then .ret (.error .badPattern)
          else if t3.head? = some '\\' then
            match t3 with
            | [] => .ret (.error .badPattern)
            | _ :: t4 =>
              match t4 with
              | [] => .ret (.error .badPattern)
              | hi :: t5 =>
                if t5 = [] then .ret (.error .badPattern)
                else .cont
                  (.ranges r neg (acc || (decide (c1 ≤ r) && decide (r ≤ hi))) (n + 1))
                  failed s t5
          else
            match t3 with
            | [] => .ret (.error .badPattern)
            | hi :: t4 =>
              if t4 = [] then .ret (.error .badPattern)
              else .cont
                (.ranges r neg (acc || (decide (c1 ≤ r) && decide (r ≤ hi))) (n + 1))
                failed s t4
      else .cont (.ranges r neg (acc || (c1 == r)) (n + 1)) failed s t1
    ) := rfl

lemma csOKStep_top_cons (n : Nat) (c : Char) (cs : Str) :
    csOKStep false n (c :: cs) =
    (
    if c = '[' then
      if cs.head? = some '^' then
        match cs with
        | _ :: cs2 => .cont true 0 cs2
        | [] => .ret false
      else .cont true 0 cs
    else if c = '?' then .cont false 0 cs
    else if c = '\\' then
      match cs with
      | [] => .ret false
      | _ :: cs2 => .cont false 0 cs2
    else .cont false 0 cs
    ) := rfl

lemma csOKStep_ranges_cons (n : Nat) (c1 : Char) (t1 : Str) :
    csOKStep true n (c1 :: t1) =
    (
    if c1 = ']' then
      if n > 0 then .cont false 0 t1
      else .ret false
    else if c1 = '-' then .ret false
    else if c1 = '\\' then
      match t1 with
      | [] => .ret false
      | _ :: t2 =>
        if t2 = [] then .ret false
        else if t2.head? = some '-' then
          match t2 with
          | [] => .ret false
          | _ :: t3 =>
            if t3 = [] then .ret false
            else if t3.head? = some ']' ∨ t3.head? = some '-' then .ret false
            else if t3.head? = some '\\' then
              match t3 with
              | [] => .ret false
              | _ :: t4 =>
                match t4 with
                | [] => .ret false
                | _ :: t5 =>
                  if t5 = [] then .ret false
                  else .cont true (n + 1) t5
            else
              match t3 with
              | [] => .ret false
              | _ :: t4 =>
                if t4 = [] then .ret false
                else .cont true (n + 1) t4
        else .cont true (n + 1) t2
    else
      if t1 = [] then .ret false
      else if t1.head? = some '-' then
        match t1 with
        | [] => .ret false
        | _ :: t3 =>
          if t3 = [] then .ret false
          else if t3.head? = some ']' ∨ t3.head? = some '-' then .ret false
          else if t3.head? = some '\\' then
            match t3 with
            | [] => .ret false
            | _ :: t4 =>
              match t4 with
              | [] => .ret false
              | _ :: t5 =>
                if t5 = [] then .ret false
                else .cont true (n + 1) t5
          else
            match t3 with
            | [] => .ret false
            | _ :: t4 =>
              if t4 = [] then .ret false
              else .cont true (n + 1) t4
      else .cont true (n + 1) t1
    ) := rfl

set_option maxHeartbeats 1600000 in
/-- Step agreement at the top of the chunk. -/
lemma mcaStep_corr_top (failed : Bool) (s : Str) (c : Char) (cs : Str) :
    stepOK (mcaStep .top failed s (c :: cs)) (csOKStep false 0 (c :: cs)) := by
  rw [mcaStep_top_cons, csOKStep_top_cons]
  repeat' split
  all_goals
    first
      | rfl
      | exact ⟨rfl, rfl, rfl⟩
      | (cases failed <;> cases s <;> (repeat' split) <;>
          first
            | rfl
            | exact ⟨rfl, rfl, rfl⟩
            | simp_all [stepOK, modeFlag, modeN, Except.isOk, Except.toBool])
      | simp_all [stepOK, modeFlag, modeN, Except.isOk, Except.toBool]

set_option maxHeartbeats 1600000 in
/-- Step agreement inside a character class. -/
lemma mcaStep_corr_ranges (r : Char) (neg acc : Bool) (n : Nat) (failed : Bool) (s : Str)
    (c1 : Char) (t1 : Str) :
    stepOK (mcaStep (.ranges r neg acc n) failed s (c1 :: t1)) (csOKStep true n (c1 :: t1)) := by
  rw [mcaStep_ranges_cons, csOKStep_ranges_cons]
  cases t1 with
  | nil =>
    dsimp only [List.head?]
    (repeat' split) <;>
      first
          | rfl
          | exact ⟨rfl, rfl, rfl⟩
          | simp_all [stepOK, modeFlag, modeN, Except.isOk, Except.toBool]
  | cons c2 t2 =>
    cases t2 with
    | nil =>
      dsimp only [List.head?]
      (repeat' split) <;>
        first
          | rfl
          | exact ⟨rfl, rfl, rfl⟩
          | simp_all [stepOK, modeFlag, modeN, Except.isOk, Except.toBool]
    | cons c3 t3 =>
      cases t3 with
      | nil =>
        dsimp only [List.head?]
        (repeat' split) <;>
          first
          | rfl
          | exact ⟨rfl, rfl, rfl⟩
          | simp_all [stepOK, modeFlag, modeN, Except.isOk, Except.toBool]
      | cons c4 t4 =>
        cases t4 with
        | nil =>
          dsimp only [List.head?]
          by_cases h1 : c1 = ']' <;> by_cases h2 : c1 = '-' <;> by_cases h3 : c1 = '\\' <;>
            by_cases h4 : 0 < n <;> by_cases h5 : c2 = '-' <;> by_cases h6 : c3 = '-' <;>
            by_cases h7 : c3 = ']' <;> by_cases h8 : c3 = '\\' <;>
            simp_all [stepOK, modeFlag, modeN, Except.isOk, Except.toBool]
        | cons c5 t5 =>
          dsimp only [List.head?]
          simp only [List.cons_ne_nil, Option.some.injEq, if_false, ite_false, reduceIte]
          (repeat' split) <;>
            first
          | rfl
          | exact ⟨rfl, rfl, rfl⟩
          | simp_all [stepOK, modeFlag, modeN, Except.isOk, Except.toBool]

/-- Every matcher step agrees with the corresponding checker step: whether the
step returns, errs or continues is independent of the name and the failed
flag. -/
lemma mcaStep_corr (m : MatchMode) (failed : Bool) (s chunk : Str) :
    stepOK (mcaStep m failed s chunk) (csOKStep (modeFlag m) (modeN m) chunk) := by
  cases m with
  | top =>
    cases chunk with
    | nil => cases failed <;> exact rfl
    | cons c cs => exact mcaStep_corr_top failed s c cs
  | ranges r neg acc n =>
    cases chunk with
    | nil => exact rfl
    | cons c1 t1 => exact mcaStep_corr_ranges r neg acc n failed s c1 t1

/-- Whether the matcher succeeds is independent of the name and of the failed
flag: matching a chunk reports a bad pattern exactly when the syntax checker
rejects it. -/
lemma matchChunkAux_isOk (fuel : Nat) :
    ∀ (m : MatchMode) (failed : Bool) (s chunk : Str),
      (matchChunkAux fuel m failed s chunk).isOk =
        csOKRun fuel (modeFlag m) (modeN m) chunk := by
  induction fuel with
  | zero => intro m failed s chunk; rfl
  | succ fuel ih =>
    intro m failed s chunk
    have h := mcaStep_corr m failed s chunk
    simp only [matchChunkAux, csOKRun]
    cases hm : mcaStep m failed s chunk with
    | ret r =>
      cases hc : csOKStep (modeFlag m) (modeN m) chunk with
      | ret b => rw [hm, hc] at h; simpa [stepOK] using h
      | cont i2 n2 ch2 => rw [hm, hc] at h; simp [stepOK] at h
    | cont m2 f2 s2 ch2 =>
      cases hc : csOKStep (modeFlag m) (modeN m) chunk with
      | ret b => rw [hm, hc] at h; simp [stepOK] at h
      | cont i2 n2 ch3 =>
        rw [hm, hc] at h
        simp only [stepOK] at h
        obtain ⟨h1, h2, h3⟩ := h
        subst h1; subst h2; subst h3
        exact ih m2 f2 s2 ch2

/-- An Except value is ok exactly when it is some ok. -/
lemma except_isOk_iff {ε α : Type} (e : Except ε α) : e.isOk = true ↔ ∃ a, e = .ok a := by
  cases e <;> simp [Except.isOk, Except.toBool]

/-- Whether matching a chunk against a name errs depends only on the chunk:
matchChunk reports a bad pattern exactly when the chunk is malformed, whatever
the name. -/
lemma matchChunk_isOk (chunk s : Str) :
    (matchChunk chunk s).isOk = chunkSyntaxOK chunk := by
  rw [matchChunk, matchChunkAux_isOk]
  rfl

/-- The match vectors of the Go path/filepath match test: pattern, name, and
the expected verdict, none standing for the bad-pattern error. -/
def goMatchVectors : List (String × String × Option Bool) := [
  ("abc", "abc", some true),
  ("*", "abc", some true),
  ("*c", "abc", some true),
  ("a*", "a", some true),
  ("a*", "abc", some true),
  ("a*", "ab/c", some false),
  ("a*/b", "abc/b", some true),
  ("a*/b", "a/c/b", some false),
  ("a*b*c*d*e*/f", "axbxcxdxe/f", some true),
  ("a*b*c*d*e*/f", "axbxcxdxexxx/f", some true),
  ("a*b*c*d*e*/f", "axbxcxdxe/xxx/f", some false),
  ("a*b*c*d*e*/f", "axbxcxdxexxx/fff", some false),
  ("a*b?c*x", "abxbbxdbxebxczzx", some true),
  ("a*b?c*x", "abxbbxdbxebxczzy", some false),
  ("ab[c]", "abc", some true),
  ("ab[b-d]", "abc", some true),
  ("ab[e-g]", "abc", some false),
  ("ab[^c]", "abc", some false),
  ("ab[^b-d]", "abc", some false),
  ("ab[^e-g]", "abc", some true),
  ("a\\*b", "a*b", some true),
  ("a\\*b", "ab", some false),
  ("a?b", "a☺b", some true),
  ("a[^a]b", "a☺b", some true),
  ("a???b", "a☺b", some false),
  ("a[^a][^a][^a]b", "a☺b", some false),
  ("[a-ζ]*", "α", some true),
  ("*[a-ζ]", "A", some false),
  ("a?b", "a/b", some false),
  ("a*b", "a/b", some false),
  ("[\\]a]", "]", some true),
  ("[\\-]", "-", some true),
  ("[x\\-]", "x", some true),
  ("[x\\-]", "-", some true),
  ("[x\\-]", "z", some false),
  ("[\\-x]", "x", some true),
  ("[\\-x]", "-", some true),
  ("[\\-x]", "a", some false),
  ("[]a]", "]", none),
  ("[-]", "-", none),
  ("[x-]", "x", none),
  ("[x-]", "-", none),
  ("[x-]", "z", none),
  ("[-x]", "x", none),
  ("[-x]", "-", none),
  ("[-x]", "a", none),
  ("\\", "a", none),
  ("[a-b-c]", "a", none),
  ("[", "a", none),
  ("[^", "a", none),
  ("[^bc", "a", none),
  ("a[", "a", none),
  ("a[", "ab", none),
  ("a[", "x", none),
  ("a/b[", "x", none),
  ("*x", "xxx", some true)]

/-- Agreement of a match result with an expected vector verdict. -/
def expectMatch : Except MatchErr Bool → Option Bool → Bool
  | .ok b, some e => b == e
  | .error .badPattern, none => true
  | _, _ => false

/-- The model of Match reproduces every vector of the Go match test. -/
theorem goMatch_vectors_check :
    goMatchVectors.all
      (fun v => expectMatch (goMatch (cstr v.1) (cstr v.2.1)) v.2.2) = true := rfl

/-- Well-formedness of a chunk list: every chunk except possibly the final one
is nonempty, as the chunk scanner guarantees. -/
def chunksWF : List (Bool × Str) → Bool
  | [] => true
  | [_] => true
  | (_, chunk) :: c2 :: rest => decide (chunk ≠ []) && chunksWF (c2 :: rest)

/-- The chunk scanner always yields at least one chunk. -/
lemma scanChunksAux_ne_nil (star inr : Bool) (cur p : Str) :
    scanChunksAux star inr cur p ≠ [] := by
  induction star, inr, cur, p using scanChunksAux.induct <;>
    rw [scanChunksAux.eq_def] <;>
    dsimp only <;>
    (repeat' split) <;>
    simp_all

/-- Prepending a nonempty chunk, or prepending to nothing, preserves chunk list
well-formedness. -/
lemma chunksWF_cons (a : Bool × Str) (l : List (Bool × Str))
    (ha : a.2 ≠ [] ∨ l = []) (hl : chunksWF l = true) : chunksWF (a :: l) = true := by
  cases l with
  | nil => rfl
  | cons b bs =>
    rcases ha with h | h
    · obtain ⟨a1, a2⟩ := a
      simpa [chunksWF, hl] using h
    · exact absurd h (List.cons_ne_nil b bs)

/-- Every chunk list the scanner produces is well-formed: only its final chunk
can be empty. -/
lemma scanChunksAux_wf (star inr : Bool) (cur p : Str) :
    chunksWF (scanChunksAux star inr cur p) = true := by
  induction star, inr, cur, p using scanChunksAux.induct <;>
    rw [scanChunksAux.eq_def] <;>
    dsimp only <;>
    (repeat' split) <;>
    first
      | (simp [chunksWF]; done)
      | (simp_all; done)
      | (apply chunksWF_cons
         · left
           simp_all [List.reverse_eq_nil_iff]
         · simp_all)

/-- The chunks of every pattern form a well-formed list. -/
lemma scanChunks_wf (p : Str) : chunksWF (scanChunks p) = true := by
  cases p with
  | nil => rfl
  | cons c rest => exact scanChunksAux_wf false false [] (c :: rest)

/-- Validation of the residual chunks errs exactly when one of them is
malformed. -/
lemma checkChunksValid_isOk (cl : List (Bool × Str)) :
    (checkChunksValid cl).isOk = cl.all (fun sc => chunkSyntaxOK sc.2) := by
  induction cl with
  | nil => rfl
  | cons a rest ih =>
    obtain ⟨st, chunk⟩ := a
    rw [checkChunksValid.eq_def]
    dsimp only
    cases hm : matchChunk chunk [] with
    | error e =>
      have h := matchChunk_isOk chunk []
      rw [hm] at h
      dsimp only [Except.isOk, Except.toBool] at h
      simp [List.all_cons, ← h, Except.isOk, Except.toBool]
    | ok v =>
      have h := matchChunk_isOk chunk []
      rw [hm] at h
      dsimp only [Except.isOk, Except.toBool] at h
      simp [List.all_cons, ← h, ih]

/-- The star retry loop never errs on a syntactically valid chunk. -/
lemma tryStar_ok (chunk : Str) (hc : chunkSyntaxOK chunk = true) (lastChunk : Bool) :
    ∀ name, (tryStar chunk lastChunk name).isOk = true := by
  intro name
  induction name with
  | nil => rfl
  | cons c restName ih =>
    rw [tryStar.eq_def]
    dsimp only
    split
    · rfl
    · cases hm : matchChunk chunk restName with
      | error e =>
        have h := matchChunk_isOk chunk restName
        rw [hm, hc] at h
        dsimp only [Except.isOk, Except.toBool] at h
        exact absurd h (by simp)
      | ok v =>
        cases v with
        | none => exact ih
        | some t =>
          dsimp only
          split
          · exact ih
          · rfl

/-- The chunkwise Match loop errs exactly when some chunk of a well-formed
chunk list is malformed, independently of the name. -/
lemma goMatchChunks_isOk (cl : List (Bool × Str)) : chunksWF cl = true →
    ∀ name, (goMatchChunks cl name).isOk = cl.all (fun sc => chunkSyntaxOK sc.2) := by
  induction cl with
  | nil => intro _ name; rfl
  | cons a rest ih =>
    intro hwf name
    obtain ⟨star, chunk⟩ := a
    have hwfrest : chunksWF rest = true := by
      cases rest with
      | nil => rfl
      | cons b bs =>
        simp only [chunksWF, Bool.and_eq_true] at hwf
        exact hwf.2
    rw [goMatchChunks.eq_def]
    dsimp only
    split
    · rename_i hsc
      obtain ⟨hstar, hchunk⟩ := hsc
      have hrest : rest = [] := by
        cases rest with
        | nil => rfl
        | cons b bs =>
          subst hchunk
          simp [chunksWF] at hwf
      subst hrest
      subst hchunk
      rfl
    · have hchunkOK := matchChunk_isOk chunk name
      cases hm : matchChunk chunk name with
      | error e =>
        rw [hm] at hchunkOK
        dsimp only [Except.isOk, Except.toBool] at hchunkOK
        simp [List.all_cons, ← hchunkOK, Except.isOk, Except.toBool]
      | ok v =>
        rw [hm] at hchunkOK
        dsimp only [Except.isOk, Except.toBool] at hchunkOK
        cases v with
        | some t =>
          dsimp only
          split
          · rw [ih hwfrest t]
            simp [List.all_cons, ← hchunkOK]
          · have hE : (if star then tryStar chunk (decide (rest = [])) name
                else Except.ok none).isOk = true := by
              cases star with
              | true => exact tryStar_ok chunk hchunkOK.symm (decide (rest = [])) name
              | false => rfl
            obtain ⟨w, hw⟩ := (except_isOk_iff _).mp hE
            rw [hw]
            cases w with
            | some t2 =>
              rw [ih hwfrest t2]
              simp [List.all_cons, ← hchunkOK]
            | none =>
              rw [checkChunksValid_isOk rest]
              simp [List.all_cons, ← hchunkOK]
        | none =>
          dsimp only
          have hE : (if star then tryStar chunk (decide (rest = [])) name
              else Except.ok none).isOk = true := by
            cases star with
            | true => exact tryStar_ok chunk hchunkOK.symm (decide (rest = [])) name
            | false => rfl
          obtain ⟨w, hw⟩ := (except_isOk_iff _).mp hE
          rw [hw]
          cases w with
          | some t2 =>
            rw [ih hwfrest t2]
            simp [List.all_cons, ← hchunkOK]
          | none =>
            rw [checkChunksValid_isOk rest]
            simp [List.all_cons, ← hchunkOK]

/-- Syntactic validity of a whole pattern: every chunk the scanner produces is
well-formed.  This is the specification notion of a pattern free of malformed
bracket expressions. -/
def patValid (p : Str) : Bool := (scanChunks p).all (fun sc => chunkSyntaxOK sc.2)

/-- Match errs exactly on a syntactically invalid pattern, never because of
the name: in particular a mismatch is never an error. -/
lemma goMatch_isOk (p n : Str) : (goMatch p n).isOk = patValid p :=
  goMatchChunks_isOk (scanChunks p) (scanChunks_wf p) n

/-- A fold in the Except monad over a step that never errs never errs. -/
lemma foldlM_isOk {α β : Type} (f : β → α → Except MatchErr β) (l : List α)
    (hf : ∀ acc x, x ∈ l → (f acc x).isOk = true) :
    ∀ init, (l.foldlM f init).isOk = true := by
  induction l with
  | nil => intro init; rfl
  | cons x xs ih =>
    intro init
    rw [List.foldlM_cons]
    cases hx : f init x with
    | error e =>
      have h := hf init x (by simp)
      rw [hx] at h
      exact absurd h (by simp [Except.isOk, Except.toBool])
    | ok b =>
      have h1 : ((Except.ok b : Except MatchErr β) >>= fun b2 => xs.foldlM f b2)
          = xs.foldlM f b := rfl
      rw [h1]
      exact ih (fun acc y hy => hf acc y (List.mem_cons_of_mem _ hy)) b

/-- One Glob level never errs when its segment is valid. -/
lemma globLevel_isOk (seg : Str) (hseg : patValid seg = true)
    (frontier : List (List Str × FSEntry)) : (globLevel seg frontier).isOk = true := by
  apply foldlM_isOk
  intro acc pe _
  obtain ⟨p, e⟩ := pe
  cases e with
  | file => rfl
  | dir cs =>
    apply foldlM_isOk
    intro acc2 nc _
    cases hq : goMatch seg nc.1 with
    | error e0 =>
      have h := goMatch_isOk seg nc.1
      rw [hq, hseg] at h
      exact absurd h (by simp [Except.isOk, Except.toBool])
    | ok b => cases b <;> rfl

/-- The level fold of Glob never errs when every segment is valid. -/
lemma globSegs_isOk (fs : FSEntry) (segs : List Str)
    (hsegs : ∀ s ∈ segs, patValid s = true) : (globSegs fs segs).isOk = true := by
  have h := foldlM_isOk (fun frontier seg => globLevel seg frontier) segs
    (fun acc x hx => globLevel_isOk x (hsegs x hx) acc) [([], fs)]
  obtain ⟨v, hv⟩ := (except_isOk_iff _).mp h
  rw [globSegs, hv]
  rfl

/-- Validity of a pattern for Glob: the whole pattern is well-formed, as the
up-front check requires, and so is every segment of its cleaned form, as the
per-level matches require. -/
def globPatternOK (p : Str) : Bool := patValid p && (cleanSegs p).all patValid

/-- Glob never errs on a valid pattern: absence of matches is the empty list,
never an error. -/
lemma goGlob_isOk (fs : FSEntry) (pattern : Str)
    (h : globPatternOK pattern = true) : (goGlob fs pattern).isOk = true := by
  have h2 := h
  simp only [globPatternOK, Bool.and_eq_true, List.all_eq_true] at h2
  obtain ⟨h2a, h2b⟩ := h2
  have hq0 := goMatch_isOk pattern []
  rw [h2a] at hq0
  obtain ⟨b, hb⟩ := (except_isOk_iff _).mp hq0
  have h1 : goGlob fs pattern = ((goMatch pattern []) >>= fun _ =>
      if pattern = [] then pure []
      else (globSegs fs (cleanSegs pattern)).map (·.map joinSegs)) := rfl
  rw [h1, hb]
  have h3 : ((Except.ok b : Except MatchErr Bool) >>= fun _ =>
      if pattern = [] then pure []
      else (globSegs fs (cleanSegs pattern)).map (·.map joinSegs))
      = (if pattern = [] then pure []
        else (globSegs fs (cleanSegs pattern)).map (·.map joinSegs)) := rfl
  rw [h3]
  split
  · rfl
  · have h4 := globSegs_isOk fs (cleanSegs pattern)
      (fun s hs => h2b s (by simpa using hs))
    obtain ⟨v, hv⟩ := (except_isOk_iff _).mp h4
    rw [hv]
    rfl

/-- Glob errs only on an invalid pattern. -/
lemma goGlob_err (fs : FSEntry) (pattern : Str) (e : MatchErr)
    (hE : goGlob fs pattern = .error e) : globPatternOK pattern = false := by
  cases hok : globPatternOK pattern with
  | false => rfl
  | true =>
    have h := goGlob_isOk fs pattern hok
    rw [hE] at h
    exact absurd h (by simp [Except.isOk, Except.toBool])

/-- A list avoiding the globstar segment has no globstar index. -/
lemma findIdx_none_of_no_gs (l : List Str) (h : ∀ x ∈ l, x ≠ gsSeg) :
    l.findIdx? (· == gsSeg) = none := by
  induction l with
  | nil => rfl
  | cons a as ih =>
    have ha : (a == gsSeg) = false := by
      simpa using h a (by simp)
    simp [List.findIdx?_cons, ha, ih (fun x hx => h x (by simp [hx]))]

/-- Claim C8: on a pattern with no segment equal to the globstar, rGlob is the
standard single-level glob: it delegates to the Glob model, it cannot err when
the pattern and all its cleaned segments are free of malformed bracket
expressions, so a pattern matching nothing yields the empty ok result, and any
error it does report convicts the pattern of being malformed. -/
theorem rGlob_no_globstar_standard_glob (fs : FSEntry) (fuel : Nat) (pattern : Str)
    (hng : ∀ part ∈ splitOnSlash pattern, part ≠ gsSeg) :
    rGlob fs (fuel + 1) pattern = (goGlob fs pattern).mapError (fun _ => .badPattern)
    ∧ (globPatternOK pattern = true → ∃ ms, rGlob fs (fuel + 1) pattern = .ok ms)
    ∧ (∀ e, rGlob fs (fuel + 1) pattern = .error e → globPatternOK pattern = false) := by
  have hfind := findIdx_none_of_no_gs (splitOnSlash pattern) hng
  have hdeleg : rGlob fs (fuel + 1) pattern
      = (goGlob fs pattern).mapError (fun _ => GlobErr.badPattern) := by
    show (match (splitOnSlash pattern).findIdx? (· == gsSeg) with
      | none => (goGlob fs pattern).mapError (fun _ => GlobErr.badPattern)
      | some g =>
        (walkDirs fs (rGlobPre (splitOnSlash pattern) g pattern)).foldlM
          (fun acc d =>
            (rGlob fs fuel (joinTwo d (rGlobPost (splitOnSlash pattern) g))).map
              (fun results => appendNew acc results)) []) = _
    rw [hfind]
  refine ⟨hdeleg, ?_, ?_⟩
  · intro hok
    have h := goGlob_isOk fs pattern hok
    obtain ⟨ms, hms⟩ := (except_isOk_iff _).mp h
    exact ⟨ms, by rw [hdeleg, hms]; rfl⟩
  · intro e hE
    rw [hdeleg] at hE
    cases hq : goGlob fs pattern with
    | ok v =>
      rw [hq] at hE
      exact absurd hE (by simp [Except.mapError])
    | error e0 => exact goGlob_err fs pattern e0 hq

/-- Witness for claim C8: the pattern zzz* has no globstar segment; on the
TestRGlob tree it matches nothing, and the theorem yields the delegation, the
guaranteed ok result of its valid pattern, and the error implication. -/
theorem rGlob_no_globstar_standard_glob_witness :
    (∀ part ∈ splitOnSlash (cstr "zzz*"), part ≠ gsSeg)
    ∧ (rGlob testFS 1 (cstr "zzz*")
        = (goGlob testFS (cstr "zzz*")).mapError (fun _ => .badPattern)
      ∧ (globPatternOK (cstr "zzz*") = true → ∃ ms, rGlob testFS 1 (cstr "zzz*") = .ok ms)
      ∧ (∀ e, rGlob testFS 1 (cstr "zzz*") = .error e
          → globPatternOK (cstr "zzz*") = false)) :=
  ⟨by decide, rGlob_no_globstar_standard_glob testFS 0 (cstr "zzz*") (by decide)⟩
